import Mathlib

/-!
Shallow embedding of the graffiti Lingo compiler pipeline (lexer, parser,
bytecode generator) and its stack virtual machine, translated from the C++
sources under src/:

  - src/src/lingo/lingo_lexer.cpp   (lingo::ast::parse_tokens)
  - src/src/lingo_ast.cpp           (lingo::ast::parse_ast and scopes)
  - src/src/lingo/lingo_bcgen.cpp   (lingo::bc::generate_bytecode, compile_bytecode)
  - src/src/lingo/vm/vm.cpp         (lingo::vm::runner::run)

Modelling conventions:
  - Byte strings are lists of byte values (0..255); `std::string` and
    `vm::string` compare by length + contents, which is list equality.
  - `int32_t` is an `Int` with explicit wrapping (mod 2^32) where the C++
    code performs arithmetic or casts that wrap.
  - `double` is modelled as an exact rational (`Rat`); no claim in this
    development depends on IEEE rounding.
  - C++ undefined behaviour (reading uninitialized data, out-of-bounds
    access, integer division by zero) is a distinct `crash` outcome,
    never a normal result and never a reported runtime error.
  - `assert(false)` (debug abort) is a distinct `afail` outcome.
  - The instruction-word encoding lives in the header lang/lingo.hpp which
    is not present under src/ (the in-tree lingo.hpp files are stale
    variants that lack OP_BRT/OP_BRF/OP_PUT and instr_decode).
    Modelled from the spec: section 4.3.1 fixes the packing (low 8 bits
    opcode, operands in the remaining 24 bits as u16 / u8 / i16), so an
    instruction is modelled as an opcode constructor carrying its decoded
    operands; emission truncates operands exactly where the C++ casts do.
-/

namespace Graffiti

/-- A byte string: the contents of a `std::string` / `vm::string` as a list
of byte values. -/
abbrev bstr := List Nat

/-- Bytes of an ASCII Lean string literal (used to name concrete inputs). -/
def bytes (s : String) : bstr := s.data.map Char.toNat

/-- `int32_t` wrap: reduce an integer into [-2^31, 2^31). Applied where the
C++ code casts to `int32_t` (the spec, section 8, prescribes two's-complement
wrap for arithmetic). -/
def wrap32 (i : Int) : Int := (i + 2 ^ 31) % 2 ^ 32 - 2 ^ 31

/-- `isspace` for the byte values the lexer feeds it (C locale). -/
def is_space (c : Nat) : Bool := c = 32 || (9 ≤ c && c ≤ 13)

/-- `isdigit` (C locale). -/
def is_digit (c : Nat) : Bool := 48 ≤ c && c ≤ 57

/-- `isalpha` (C locale, ASCII). -/
def is_alpha (c : Nat) : Bool := (65 ≤ c && c ≤ 90) || (97 ≤ c && c ≤ 122)

/-- `isalnum` (C locale, ASCII). -/
def is_alnum (c : Nat) : Bool := is_digit c || is_alpha c

/-- `tolower` (C locale, ASCII). -/
def to_lower (c : Nat) : Nat := if 65 ≤ c ∧ c ≤ 90 then c + 32 else c

/-- Decimal digits of a natural number, most significant first. -/
def nat_dec (n : Nat) : bstr := (Nat.toDigits 10 n).map Char.toNat

/-- `std::to_string(int32_t)`: decimal text, with a leading minus sign for
negative values. -/
def int_to_dec (i : Int) : bstr :=
  if i < 0 then 45 :: nat_dec (-i).toNat else nat_dec i.toNat

/-- Lexicographic byte-string comparison: `std::string operator<`
(`std::char_traits<char>::compare` on the byte values, then length). -/
def blt : bstr → bstr → Bool
  | [], [] => false
  | [], _ :: _ => true
  | _ :: _, [] => false
  | a :: as, b :: bs => if a < b then true else if b < a then false else blt as bs

/-- `std::set<std::string>::insert`: ordered insertion without duplicates.
Iteration order of the set is ascending `blt` order, which this sorted list
realizes directly. -/
def set_insert (x : bstr) : List bstr → List bstr
  | [] => [x]
  | y :: ys =>
    if blt x y then x :: y :: ys
    else if blt y x then y :: set_insert x ys
    else y :: ys

/-- `std::set<std::string>::find(...) != end()`: membership. -/
def set_mem (x : bstr) (s : List bstr) : Bool := s.contains x

/-! ## Numeric parsing models (C library functions used by the sources)

`strtol`, `strtod`, `std::stoi`, `std::stod` are C/C++ library routines, not
repository code; they are modelled here per their documented behaviour on
the decimal inputs the callers can produce. -/

/-- Leading decimal-digit run of a byte string, with the unconsumed rest. -/
def dec_run : bstr → (List Nat × bstr)
  | [] => ([], [])
  | c :: cs =>
    if is_digit c then
      let r := dec_run cs
      (c :: r.1, r.2)
    else ([], c :: cs)

/-- Natural value of a digit run (most significant first). -/
def digits_val (ds : List Nat) : Nat := ds.foldl (fun acc d => acc * 10 + (d - 48)) 0

/-- `strtol(s, &end, 10)`: skip spaces, optional sign, digit run. Returns
the number of bytes consumed (0 when no digits: no conversion) and the
`long` value, clamped to the 64-bit `long` range on overflow. -/
def strtol10 (s : bstr) : Nat × Int :=
  let ws := s.takeWhile is_space
  let s1 := s.drop ws.length
  let (sgn, s2, slen) :=
    match s1 with
    | 45 :: rest => (true, rest, 1)
    | 43 :: rest => (false, rest, 1)
    | _ => (false, s1, 0)
  let (ds, _) := dec_run s2
  if ds.isEmpty then (0, 0)
  else
    let v : Int := if sgn then -(digits_val ds : Int) else (digits_val ds : Int)
    let clamped := if v > 2 ^ 63 - 1 then 2 ^ 63 - 1 else if v < -(2 ^ 63) then -(2 ^ 63) else v
    (ws.length + slen + ds.length, clamped)

/-- `strtod`: skip spaces, optional sign, decimal digits with an optional
fraction and an optional exponent. Returns bytes consumed (0 when no
conversion) and the value as an exact rational. The exponent is clamped to
±400 (past the double range; values there over/underflow in C and no claim
depends on them). -/
def strtod_model (s : bstr) : Nat × Rat :=
  let ws := s.takeWhile is_space
  let s1 := s.drop ws.length
  let (sgn, s2, slen) :=
    match s1 with
    | 45 :: rest => (true, rest, 1)
    | 43 :: rest => (false, rest, 1)
    | _ => (false, s1, 0)
  let (ids, s3) := dec_run s2
  let (fds, s4, flen) :=
    match s3 with
    | 46 :: rest =>
      let (fds, s4) := dec_run rest
      (fds, s4, fds.length + 1)
    | _ => ([], s3, 0)
  if ids.isEmpty ∧ fds.isEmpty then (0, 0)
  else
    let mant : Rat := (digits_val (ids ++ fds) : Rat) / ((10 : Rat) ^ fds.length)
    let (elen, eval10) :=
      match s4 with
      | e :: rest =>
        if e = 101 ∨ e = 69 then
          let (esgn, s5, eslen) :=
            match rest with
            | 45 :: r2 => (true, r2, 1)
            | 43 :: r2 => (false, r2, 1)
            | _ => (false, rest, 0)
          let (eds, _) := dec_run s5
          if eds.isEmpty then (0, (0 : Int))
          else
            let ev : Int := if esgn then -(digits_val eds : Int) else (digits_val eds : Int)
            let evc := if ev > 400 then 400 else if ev < -400 then -400 else ev
            (1 + eslen + eds.length, evc)
        else (0, 0)
      | [] => (0, 0)
    let scaled := if eval10 ≥ 0 then mant * (10 : Rat) ^ eval10.toNat else mant / (10 : Rat) ^ (-eval10).toNat
    (ws.length + slen + ids.length + flen + elen, if sgn then -scaled else scaled)

/-- `std::stoi`: `strtol` base 10; throws `invalid_argument` when nothing
was consumed and `out_of_range` when the value does not fit `int`.
`none` models a thrown exception (uncaught in the VM: the process dies). -/
def stoi_model (s : bstr) : Option Int :=
  let (consumed, v) := strtol10 s
  if consumed = 0 then none
  else if v > 2 ^ 31 - 1 ∨ v < -(2 ^ 31) then none
  else some v

/-- `std::stod`: `strtod`; throws `invalid_argument` when nothing was
consumed. `none` models a thrown exception. -/
def stod_model (s : bstr) : Option Rat :=
  let (consumed, v) := strtod_model s
  if consumed = 0 then none else some v

/-! ## VM values (src/src/lingo/vm/vm.hpp: `vm::variant`)

The tag order is `bc::vtype` (VOID, INT, FLOAT, STRING, SYMBOL, LLIST,
PLIST, POINT, QUAD), identical in both in-tree headers and in the spec
(section 3.5). Strings are modelled by their contents (the implemented
opcodes only ever compare or print string contents); a symbol carries both
its pointer identity (the interned handle) and the pointee characters,
because `OP_EQ` compares symbols by pointer and strings by contents.
Lists, points and quads are opaque references in the implemented opcodes. -/

inductive value where
  | vvoid : value
  | vint (i : Int) : value
  | vfloat (q : Rat) : value
  | vstr (s : bstr) : value
  | vsym (r : Nat) (s : bstr) : value
  | vllist (r : Nat) : value
  | vplist (r : Nat) : value
  | vpoint (r : Nat) : value
  | vquad (r : Nat) : value
deriving DecidableEq

/-- The `bc::vtype` tag of a value (numeric, for the `OP_EQ` swap test). -/
def value.tag : value → Nat
  | .vvoid => 0
  | .vint _ => 1
  | .vfloat _ => 2
  | .vstr _ => 3
  | .vsym _ _ => 4
  | .vllist _ => 5
  | .vplist _ => 6
  | .vpoint _ => 7
  | .vquad _ => 8

/-- Result of the `OP_EQ` comparison: a boolean, or a crash (an exception
escaping `std::stoi` / `std::stod`, which the VM does not catch). -/
inductive eqres where
  | val (b : Bool) : eqres
  | crash (msg : String) : eqres
deriving DecidableEq

/-- The `OP_EQ` comparison chain of vm.cpp lines 354-401, applied after the
operand swap, with `a` the lower-tagged operand. `res` starts out `false`
and is only set by the listed cases. -/
def eq_chain (a b : value) : eqres :=
  match a with
  | .vvoid => .val (b.tag = 0)
  | .vint ai =>
    match b with
    | .vint bi => .val (decide (ai = bi))
    | .vfloat bf => .val (decide ((ai : Rat) = bf))
    | .vstr s =>
      -- determine if string describes a real or an integer
      let is_real := s.contains 46
      if is_real then
        match stod_model s with
        | none => .crash "stod"
        | some q => .val (decide ((ai : Rat) = q))
      else
        match stoi_model s with
        | none => .crash "stoi"
        | some n => .val (decide (ai = n))
    | _ => .val false
  | .vfloat af =>
    match b with
    | .vstr s =>
      match stod_model s with
      | none => .crash "stod"
      | some q => .val (decide (af = q))
    | _ => .val false
  | .vstr sa =>
    match b with
    | .vstr sb => .val (decide (sa = sb))
    | .vsym _ sb => .val (decide (sa = sb))
    | _ => .val false
  | .vsym ra _ =>
    match b with
    | .vsym rb _ => .val (decide (ra = rb))
    | _ => .val false
  | _ => .val false

/-- `OP_EQ` (vm.cpp lines 343-407): the operands are swapped so that the
lower-tagged one comes first (`if (b->type < a->type) swap`), then the
comparison chain runs. -/
def op_eq_core (x y : value) : eqres :=
  if y.tag < x.tag then eq_chain y x else eq_chain x y

/-- Result of an arithmetic opcode: a pushed value, a runtime error
(`std::cerr` + `return 1`), or a crash (C++ undefined behaviour). -/
inductive arithres where
  | val (v : value) : arithres
  | rterr (msg : String) : arithres
  | crash (msg : String) : arithres
deriving DecidableEq

/-- `OP_ADD` (vm.cpp lines 207-239). When `a` is neither Int nor Float the
code pushes the default-constructed `variant result` — a Void — with no
error. Signed `int32_t` overflow wraps (see `wrap32`). -/
def op_add_core (a b : value) : arithres :=
  match a with
  | .vint ai =>
    match b with
    | .vfloat bf => .val (.vfloat ((ai : Rat) + bf))
    | .vint bi => .val (.vint (wrap32 (ai + bi)))
    | _ => .rterr "add invalid operand types"
  | .vfloat af =>
    match b with
    | .vfloat bf => .val (.vfloat (af + bf))
    | .vint bi => .val (.vfloat (af + (bi : Rat)))
    | _ => .rterr "add invalid operand types"
  | _ => .val .vvoid

/-- `OP_SUB` (vm.cpp lines 241-273). -/
def op_sub_core (a b : value) : arithres :=
  match a with
  | .vint ai =>
    match b with
    | .vfloat bf => .val (.vfloat ((ai : Rat) - bf))
    | .vint bi => .val (.vint (wrap32 (ai - bi)))
    | _ => .rterr "add invalid operand types"
  | .vfloat af =>
    match b with
    | .vfloat bf => .val (.vfloat (af - bf))
    | .vint bi => .val (.vfloat (af - (bi : Rat)))
    | _ => .rterr "sub invalid operand types"
  | _ => .val .vvoid

/-- `OP_MUL` (vm.cpp lines 275-307). -/
def op_mul_core (a b : value) : arithres :=
  match a with
  | .vint ai =>
    match b with
    | .vfloat bf => .val (.vfloat ((ai : Rat) * bf))
    | .vint bi => .val (.vint (wrap32 (ai * bi)))
    | _ => .rterr "mul invalid operand types"
  | .vfloat af =>
    match b with
    | .vfloat bf => .val (.vfloat (af * bf))
    | .vint bi => .val (.vfloat (af * (bi : Rat)))
    | _ => .rterr "mul invalid operand types"
  | _ => .val .vvoid

/-- `OP_DIV` (vm.cpp lines 309-341). The Int/Int branch computes
`a->i32 / b->i32` with no guard: C++ integer division by zero, and
`INT_MIN / -1`, are undefined behaviour (`crash`), not runtime errors.
A nonzero in-range division truncates toward zero (`Int.tdiv`). Float
division by a zero rational has no IEEE infinity here; the zero-divisor
rational division yields 0 in `Rat` (no claim depends on it). -/
def op_div_core (a b : value) : arithres :=
  match a with
  | .vint ai =>
    match b with
    | .vfloat bf => .val (.vfloat ((ai : Rat) / bf))
    | .vint bi =>
      if bi = 0 then .crash "integer division by zero"
      else if ai = -(2 ^ 31) ∧ bi = -1 then .crash "integer division overflow"
      else .val (.vint (ai.tdiv bi))
    | _ => .rterr "div invalid operand types"
  | .vfloat af =>
    match b with
    | .vfloat bf => .val (.vfloat (af / bf))
    | .vint bi => .val (.vfloat (af / (bi : Rat)))
    | _ => .rterr "div invalid operand types"
  | _ => .val .vvoid

/-! ## Instructions and chunks -/

/-- `bc::opcode` with decoded operands (see the header note at the top:
the encoding itself is abstracted per spec section 4.3.1; `u16` operands
are naturals < 2^16 by emission, jump offsets are `i16` values). -/
inductive instr where
  | OP_RET | OP_POP | OP_DUP | OP_LOADVOID | OP_LOADI0 | OP_LOADI1
  | OP_LOADC (k : Nat) | OP_LOADL (n : Nat) | OP_LOADL0 | OP_LOADG (k : Nat)
  | OP_STOREL (n : Nat) | OP_STOREG (k : Nat)
  | OP_UNM | OP_ADD | OP_SUB | OP_MUL | OP_DIV | OP_MOD
  | OP_EQ | OP_LT | OP_GT | OP_LTE | OP_GTE | OP_AND | OP_OR | OP_NOT
  | OP_CONCAT | OP_CONCATSP
  | OP_JMP (off : Int) | OP_BRT (off : Int) | OP_BRF (off : Int)
  | OP_CALL (k n : Nat) | OP_OCALL (k n : Nat)
  | OP_OIDXG | OP_OIDXS | OP_OIDXK | OP_OIDXKR
  | OP_THE (id : Nat) | OP_NEWLLIST (n : Nat) | OP_NEWPLIST
  | OP_CASE (t : Nat) | OP_PUT
deriving DecidableEq

/-- `bc::chunk_const`: a constant-pool entry. String and symbol entries
reference a record of the chunk's string pool; the in-blob byte offset is
abstracted to the record index (the blob layout is pure memory layout). -/
inductive chunk_const where
  | cint (i : Int) : chunk_const
  | cfloat (q : Rat) : chunk_const
  | cstr (pidx : Nat) : chunk_const
  | csym (pidx : Nat) : chunk_const
deriving DecidableEq

/-- A compiled chunk: the logical content of `bc::chunk_header` plus its
four regions (instructions, constants, string pool, local names). The
local-name entries are indices into the string pool. -/
structure chunk where
  nargs : Nat
  nlocals : Nat
  instrs : List instr
  consts : List chunk_const
  string_pool : List bstr
  local_names : List Nat
deriving DecidableEq

/-- Textual local names of a chunk (resolving the pool references). -/
def chunk.local_name_strs (c : chunk) : List bstr :=
  c.local_names.map (fun i => c.string_pool.getD i [])

/-! ## VM state and dispatch (src/src/lingo/vm/vm.cpp) -/

/-- `vm::runner::call_info`. The `stack_base` pointer is modelled as an
index into the operand stack; `none` models the field never having been
assigned (the `run` entry point sets `chunk` and `ip` of the first frame
but not `stack_base`, and no other code writes it). -/
structure call_info where
  ip : Int
  stack_base : Option Nat
deriving DecidableEq

/-- VM state: the 256-slot operand stack (`variant _stack[256]`, whose
elements are default-constructed to Void; a list of fixed length 256), the
stack-top index, the call
stack (head = `_cstack_top`), the symbol intern table (position =
interned handle), and the bytes written to standard output. The current
`ip` mirrors the dispatch loop's local `ip` variable. -/
structure vmstate where
  stack : List value
  top : Nat
  cstack : List call_info
  ip : Int
  intern : List bstr
  out : List Nat
deriving DecidableEq

/-- Outcome of one dispatch step. -/
inductive stepres where
  | cont (st : vmstate) : stepres
  | halt (st : vmstate) : stepres
  | rterr (msg : String) (st : vmstate) : stepres
  | crash (msg : String) : stepres
deriving DecidableEq

/-- Read the stack slot at index `i` (crash on an out-of-range read: in
C++ this dereferences outside `_stack`). -/
def stk_read (st : vmstate) (i : Nat) : Option value := st.stack.get? i

/-- Write the stack slot at index `i`. -/
def stk_write (st : vmstate) (i : Nat) (v : value) : Option vmstate :=
  if i < st.stack.length then some { st with stack := st.stack.set i v } else none

/-- Push a value (`*(_stack_top++) = v`): crash when the 256 slots are
exhausted (C++ writes past the array). -/
def vm_push (st : vmstate) (v : value) : Option vmstate :=
  match stk_write st st.top v with
  | some st2 => some { st2 with top := st.top + 1 }
  | none => none

/-- `vm::runner::stringify` (vm.cpp lines 12-47). For floats,
`std::to_string(double)` formats with six fixed decimals; the rounding of
the abstracted rational is to nearest, which no claim depends on. For the
reference types it prints the pointer (`<%p>`), modelled by the abstract
reference number. -/
def stringify : value → bstr
  | .vvoid => bytes "<Void>"
  | .vint i => int_to_dec i
  | .vfloat q =>
    let scaled : Int := Rat.floor ((if q < 0 then -q else q) * 1000000 + 1 / 2)
    let sign : bstr := if q < 0 then [45] else []
    let whole := nat_dec (scaled.toNat / 1000000)
    let frac := nat_dec (scaled.toNat % 1000000)
    sign ++ whole ++ [46] ++ List.replicate (6 - frac.length) 48 ++ frac
  | .vstr s => s
  | .vsym _ s => 35 :: s
  | .vllist r => 60 :: nat_dec r ++ [62]
  | .vplist r => 60 :: nat_dec r ++ [62]
  | .vpoint r => 60 :: nat_dec r ++ [62]
  | .vquad r => 60 :: nat_dec r ++ [62]

/-- One iteration of the dispatch loop of `vm::runner::run` (vm.cpp lines
69-475): fetch the instruction at `ip`, advance `ip`, execute. The chunk
argument is the (single) running chunk; `start_chunk` and the frame-local
`chunk` coincide since `OP_CALL` is unimplemented. -/
def vm_step (c : chunk) (st : vmstate) : stepres :=
  match st.cstack with
  | [] => .halt st
  | _ :: cs_rest =>
  if h : 0 ≤ st.ip ∧ st.ip.toNat < c.instrs.length then
  let i := c.instrs.get ⟨st.ip.toNat, h.2⟩
  let st := { st with ip := st.ip + 1 }
  match i with
  | .OP_RET =>
    -- `if (_cstack == _cstack_top) { _cstack_top = nullptr; break; }`
    match cs_rest with
    | [] => .halt { st with cstack := [] }
    | f :: rest =>
      -- pop the frame, resume the caller ... and fall through into the
      -- OP_POP arm (the case has no break): the stack top is decremented.
      if st.top = 0 then .crash "stack underflow"
      else .cont { st with cstack := f :: rest, ip := f.ip, top := st.top - 1 }
  | .OP_POP =>
    if st.top = 0 then .crash "stack underflow"
    else .cont { st with top := st.top - 1 }
  | .OP_DUP =>
    match stk_read st (st.top - 1) with
    | none => .crash "stack read out of range"
    | some v =>
      if st.top = 0 then .crash "stack underflow"
      else
        match vm_push st v with
        | none => .crash "stack overflow"
        | some st2 => .cont st2
  | .OP_LOADVOID =>
    match vm_push st .vvoid with
    | none => .crash "stack overflow"
    | some st2 => .cont st2
  | .OP_LOADI0 =>
    match vm_push st (.vint 0) with
    | none => .crash "stack overflow"
    | some st2 => .cont st2
  | .OP_LOADI1 =>
    match vm_push st (.vint 1) with
    | none => .crash "stack overflow"
    | some st2 => .cont st2
  | .OP_LOADC k =>
    match c.consts.get? k with
    | none => .crash "constant index out of range"
    | some cst =>
      match cst with
      | .cint i =>
        match vm_push st (.vint i) with
        | none => .crash "stack overflow"
        | some st2 => .cont st2
      | .cfloat q =>
        match vm_push st (.vfloat q) with
        | none => .crash "stack overflow"
        | some st2 => .cont st2
      | .cstr pidx =>
        match c.string_pool.get? pidx with
        | none => .crash "string pool index out of range"
        | some s =>
          match vm_push st (.vstr s) with
          | none => .crash "stack overflow"
          | some st2 => .cont st2
      | .csym pidx =>
        match c.string_pool.get? pidx with
        | none => .crash "string pool index out of range"
        | some s =>
          -- symbol interning: reuse the existing handle or create one
          match st.intern.indexOf? s with
          | some idx =>
            match vm_push st (.vsym idx s) with
            | none => .crash "stack overflow"
            | some st2 => .cont st2
          | none =>
            let st := { st with intern := st.intern ++ [s] }
            match vm_push st (.vsym (st.intern.length - 1) s) with
            | none => .crash "stack overflow"
            | some st2 => .cont st2
  | .OP_LOADL n =>
    match st.cstack.head? with
    | none => .crash "no frame"
    | some f =>
      match f.stack_base with
      | none => .crash "uninitialized stack_base"
      | some base =>
        match stk_read st (base + n) with
        | none => .crash "stack read out of range"
        | some v =>
          match vm_push st v with
          | none => .crash "stack overflow"
          | some st2 => .cont st2
  | .OP_LOADL0 =>
    match st.cstack.head? with
    | none => .crash "no frame"
    | some f =>
      match f.stack_base with
      | none => .crash "uninitialized stack_base"
      | some base =>
        match stk_read st base with
        | none => .crash "stack read out of range"
        | some v =>
          match vm_push st v with
          | none => .crash "stack overflow"
          | some st2 => .cont st2
  | .OP_STOREL n =>
    match st.cstack.head? with
    | none => .crash "no frame"
    | some f =>
      match f.stack_base with
      | none => .crash "uninitialized stack_base"
      | some base =>
        if st.top = 0 then .crash "stack underflow"
        else
          match stk_read st (st.top - 1) with
          | none => .crash "stack read out of range"
          | some v =>
            match stk_write { st with top := st.top - 1 } (base + n) v with
            | none => .crash "stack write out of range"
            | some st2 => .cont st2
  | .OP_UNM =>
    match stk_read st (st.top - 1) with
    | none => .crash "stack read out of range"
    | some v =>
      if st.top = 0 then .crash "stack underflow"
      else
        match v with
        | .vint i =>
          match stk_write st (st.top - 1) (.vint (wrap32 (-i))) with
          | none => .crash "stack write out of range"
          | some st2 => .cont st2
        | .vfloat q =>
          match stk_write st (st.top - 1) (.vfloat (-q)) with
          | none => .crash "stack write out of range"
          | some st2 => .cont st2
        | _ => .rterr "unm invalid operand" st
  | .OP_ADD =>
    if st.top < 2 then .crash "stack underflow"
    else
      match stk_read st (st.top - 2), stk_read st (st.top - 1) with
      | some a, some b =>
        match op_add_core a b with
        | .rterr m => .rterr m st
        | .crash m => .crash m
        | .val v =>
          match stk_write { st with top := st.top - 1 } (st.top - 2) v with
          | none => .crash "stack write out of range"
          | some st2 => .cont st2
      | _, _ => .crash "stack read out of range"
  | .OP_SUB =>
    if st.top < 2 then .crash "stack underflow"
    else
      match stk_read st (st.top - 2), stk_read st (st.top - 1) with
      | some a, some b =>
        match op_sub_core a b with
        | .rterr m => .rterr m st
        | .crash m => .crash m
        | .val v =>
          match stk_write { st with top := st.top - 1 } (st.top - 2) v with
          | none => .crash "stack write out of range"
          | some st2 => .cont st2
      | _, _ => .crash "stack read out of range"
  | .OP_MUL =>
    if st.top < 2 then .crash "stack underflow"
    else
      match stk_read st (st.top - 2), stk_read st (st.top - 1) with
      | some a, some b =>
        match op_mul_core a b with
        | .rterr m => .rterr m st
        | .crash m => .crash m
        | .val v =>
          match stk_write { st with top := st.top - 1 } (st.top - 2) v with
          | none => .crash "stack write out of range"
          | some st2 => .cont st2
      | _, _ => .crash "stack read out of range"
  | .OP_DIV =>
    if st.top < 2 then .crash "stack underflow"
    else
      match stk_read st (st.top - 2), stk_read st (st.top - 1) with
      | some a, some b =>
        match op_div_core a b with
        | .rterr m => .rterr m st
        | .crash m => .crash m
        | .val v =>
          match stk_write { st with top := st.top - 1 } (st.top - 2) v with
          | none => .crash "stack write out of range"
          | some st2 => .cont st2
      | _, _ => .crash "stack read out of range"
  | .OP_EQ =>
    if st.top < 2 then .crash "stack underflow"
    else
      match stk_read st (st.top - 2), stk_read st (st.top - 1) with
      | some a, some b =>
        match op_eq_core a b with
        | .crash m => .crash m
        | .val res =>
          match stk_write { st with top := st.top - 1 } (st.top - 2)
              (.vint (if res then 1 else 0)) with
          | none => .crash "stack write out of range"
          | some st2 => .cont st2
      | _, _ => .crash "stack read out of range"
  | .OP_NOT =>
    match stk_read st (st.top - 1) with
    | none => .crash "stack read out of range"
    | some v =>
      if st.top = 0 then .crash "stack underflow"
      else
        -- instead of raising an error on a non-Int, it stores FALSE
        let v2 : value :=
          match v with
          | .vint i => .vint (if i = 0 then 1 else 0)
          | _ => .vint 0
        match stk_write st (st.top - 1) v2 with
        | none => .crash "stack write out of range"
        | some st2 => .cont st2
  | .OP_PUT =>
    match stk_read st (st.top - 1) with
    | none => .crash "stack read out of range"
    | some v =>
      if st.top = 0 then .crash "stack underflow"
      else
        -- std::cout << str->data() << "\n": data() prints up to a NUL byte
        .cont { st with top := st.top - 1,
                        out := st.out ++ (stringify v).takeWhile (· ≠ 0) ++ [10] }
  | .OP_JMP off => .cont { st with ip := st.ip + off - 1 }
  | .OP_BRF off =>
    match stk_read st (st.top - 1) with
    | none => .crash "stack read out of range"
    | some v =>
      if st.top = 0 then .crash "stack underflow"
      else
        match v with
        | .vint i => if i = 0 then .cont { st with ip := st.ip + off - 1 } else .cont st
        | .vvoid => .cont { st with ip := st.ip + off - 1 }
        | _ => .rterr "error: expected integer" st
  | .OP_BRT off =>
    match stk_read st (st.top - 1) with
    | none => .crash "stack read out of range"
    | some v =>
      if st.top = 0 then .crash "stack underflow"
      else
        match v with
        | .vint i => if i ≠ 0 then .cont { st with ip := st.ip + off - 1 } else .cont st
        | .vvoid => .cont st
        | _ => .rterr "error: expected integer" st
  | _ => .rterr "unimplemented opcode" st
  else .crash "instruction fetch out of range"

/-- Outcome of a full VM run. -/
inductive runres where
  | ok (st : vmstate) : runres
  | rterr (msg : String) (st : vmstate) : runres
  | crash (msg : String) : runres
  | nofuel : runres
deriving DecidableEq

/-- Iterate `vm_step` (the `while (_cstack_top)` loop). -/
def vm_loop (c : chunk) : Nat → vmstate → runres
  | 0, _ => .nofuel
  | fuel + 1, st =>
    match vm_step c st with
    | .halt st2 => .ok st2
    | .rterr m st2 => .rterr m st2
    | .crash m => .crash m
    | .cont st2 => vm_loop c fuel st2

/-- The initial VM state for `vm::runner::run(start_chunk)`: 256 Void
slots, empty stack, one frame with `ip = 0` and — faithfully — an
unassigned `stack_base` (vm.cpp lines 51-54 set `chunk` and `ip` only). -/
def run_init : vmstate :=
  { stack := List.replicate 256 .vvoid
    top := 0
    cstack := [{ ip := 0, stack_base := none }]
    ip := 0
    intern := []
    out := [] }

/-- `vm::runner::run` on a fresh runner. -/
def vm_run (c : chunk) (fuel : Nat) : runres := vm_loop c fuel run_init

/-- The same entry point with the initial frame's `stack_base` set to the
bottom of the operand stack — the evident intent of the code (every
`stack_base` use indexes the locals of the running handler). Used to
exhibit what the program would do were the field initialized. -/
def vm_run_patched (c : chunk) (fuel : Nat) : runres :=
  vm_loop c fuel { run_init with cstack := [{ ip := 0, stack_base := some 0 }] }

/-! ## Lexer (src/src/lingo/lingo_lexer.cpp: `lingo::ast::parse_tokens`)

Source positions are diagnostic-only (they decide nothing in the pipeline)
and are omitted from the model. -/

inductive token_keyword where
  | KEYWORD_ON | KEYWORD_ELSE | KEYWORD_THEN
  | KEYWORD_AND | KEYWORD_OR | KEYWORD_NOT | KEYWORD_MOD
deriving DecidableEq

inductive token_word_id where
  | WORD_ID_RETURN | WORD_ID_END | WORD_ID_EXIT | WORD_ID_NEXT
  | WORD_ID_IF | WORD_ID_REPEAT | WORD_ID_WITH | WORD_ID_TO | WORD_ID_DOWN
  | WORD_ID_WHILE | WORD_ID_CASE | WORD_ID_OTHERWISE | WORD_ID_THE
  | WORD_ID_OF | WORD_ID_IN | WORD_ID_PUT | WORD_ID_AFTER | WORD_ID_BEFORE
  | WORD_ID_TYPE | WORD_ID_NUMBER | WORD_ID_INTEGER | WORD_ID_STRING
  | WORD_ID_POINT | WORD_ID_RECT | WORD_ID_IMAGE
  | WORD_ID_GLOBAL | WORD_ID_PROPERTY
  | WORD_ID_UNKNOWN
deriving DecidableEq

inductive token_symbol where
  | SYMBOL_LE | SYMBOL_GE | SYMBOL_NEQUAL | SYMBOL_COMMENT
  | SYMBOL_DOUBLE_AMPERSAND | SYMBOL_RANGE
  | SYMBOL_COMMA | SYMBOL_PERIOD | SYMBOL_MINUS | SYMBOL_PLUS
  | SYMBOL_SLASH | SYMBOL_STAR | SYMBOL_AMPERSAND | SYMBOL_POUND
  | SYMBOL_LPAREN | SYMBOL_RPAREN | SYMBOL_LBRACKET | SYMBOL_RBRACKET
  | SYMBOL_LBRACE | SYMBOL_RBRACE | SYMBOL_COLON | SYMBOL_EQUAL
  | SYMBOL_LT | SYMBOL_GT | SYMBOL_LINE_CONT
deriving DecidableEq

/-- `lingo::ast::token` (without the diagnostic position). -/
inductive token where
  | keyword (k : token_keyword) : token
  | symbol (s : token_symbol) : token
  | float (q : Rat) : token
  | integer (i : Int) : token
  | word (s : bstr) (id : token_word_id) : token
  | string (s : bstr) : token
  | symbol_literal (s : bstr) : token
  | line_end : token
deriving DecidableEq

/-- The `symbol_pairs` table: bytes of each spelling and its symbol.
Multi-character symbols come first, exactly as in the source. -/
def symbol_pairs : List (bstr × token_symbol) :=
  [ (bytes "<=", .SYMBOL_LE), (bytes ">=", .SYMBOL_GE), (bytes "<>", .SYMBOL_NEQUAL),
    (bytes "--", .SYMBOL_COMMENT), (bytes "&&", .SYMBOL_DOUBLE_AMPERSAND),
    (bytes "..", .SYMBOL_RANGE),
    (bytes ",", .SYMBOL_COMMA), (bytes ".", .SYMBOL_PERIOD), (bytes "-", .SYMBOL_MINUS),
    (bytes "+", .SYMBOL_PLUS), (bytes "/", .SYMBOL_SLASH), (bytes "*", .SYMBOL_STAR),
    (bytes "&", .SYMBOL_AMPERSAND), ([35], .SYMBOL_POUND),
    (bytes "(", .SYMBOL_LPAREN), (bytes ")", .SYMBOL_RPAREN),
    (bytes "[", .SYMBOL_LBRACKET), (bytes "]", .SYMBOL_RBRACKET),
    ([123], .SYMBOL_LBRACE), ([125], .SYMBOL_RBRACE),
    (bytes ":", .SYMBOL_COLON), (bytes "=", .SYMBOL_EQUAL),
    (bytes "<", .SYMBOL_LT), (bytes ">", .SYMBOL_GT),
    ([92], .SYMBOL_LINE_CONT) ]

/-- `identify_symbol`: first table entry whose spelling equals the buffer
(`SYMBOL_INVALID` when none does, modelled as `none`). -/
def identify_symbol (s : bstr) : Option token_symbol :=
  (symbol_pairs.find? (fun p => p.1 = s)).map Prod.snd

/-- The `keyword_pairs` table and `identify_keyword`. -/
def keyword_pairs : List (bstr × token_keyword) :=
  [ (bytes "on", .KEYWORD_ON), (bytes "else", .KEYWORD_ELSE), (bytes "then", .KEYWORD_THEN),
    (bytes "and", .KEYWORD_AND), (bytes "or", .KEYWORD_OR), (bytes "not", .KEYWORD_NOT),
    (bytes "mod", .KEYWORD_MOD) ]

def identify_keyword (s : bstr) : Option token_keyword :=
  (keyword_pairs.find? (fun p => p.1 = s)).map Prod.snd

/-- The `str_to_word_id` table. -/
def str_to_word_id : List (bstr × token_word_id) :=
  [ (bytes "return", .WORD_ID_RETURN), (bytes "end", .WORD_ID_END),
    (bytes "next", .WORD_ID_NEXT), (bytes "exit", .WORD_ID_EXIT),
    (bytes "if", .WORD_ID_IF), (bytes "repeat", .WORD_ID_REPEAT),
    (bytes "with", .WORD_ID_WITH), (bytes "to", .WORD_ID_TO),
    (bytes "down", .WORD_ID_DOWN), (bytes "while", .WORD_ID_WHILE),
    (bytes "case", .WORD_ID_CASE), (bytes "otherwise", .WORD_ID_OTHERWISE),
    (bytes "the", .WORD_ID_THE), (bytes "of", .WORD_ID_OF),
    (bytes "in", .WORD_ID_IN), (bytes "put", .WORD_ID_PUT),
    (bytes "after", .WORD_ID_AFTER), (bytes "before", .WORD_ID_BEFORE),
    (bytes "type", .WORD_ID_TYPE), (bytes "number", .WORD_ID_NUMBER),
    (bytes "integer", .WORD_ID_INTEGER), (bytes "string", .WORD_ID_STRING),
    (bytes "point", .WORD_ID_POINT), (bytes "rect", .WORD_ID_RECT),
    (bytes "image", .WORD_ID_IMAGE), (bytes "global", .WORD_ID_GLOBAL),
    (bytes "property", .WORD_ID_PROPERTY) ]

/-- `token::make_word`: attach the recognised-word identifier if the
lower-cased spelling is in the table. -/
def make_word (s : bstr) : token :=
  match (str_to_word_id.find? (fun p => p.1 = s)).map Prod.snd with
  | some id => .word s id
  | none => .word s .WORD_ID_UNKNOWN

/-- The lexer's input stream: remaining bytes, the stream's eof bit, and
the current character `ch`. `istream::get()` at end of input returns EOF
(-1, i.e. byte 255 once stored in `char`) and sets the eof bit. -/
structure lex_stream where
  data : List Nat
  eofbit : Bool
  ch : Nat
deriving DecidableEq

/-- The `next_char` lambda of `parse_tokens` (lexer lines 277-290): once
the eof bit is set it yields a newline forever; otherwise it reads the
next byte (setting the eof bit at the end of input). -/
def next_char (s : lex_stream) : lex_stream :=
  if s.eofbit then { s with ch := 10 }
  else
    match s.data with
    | [] => { s with eofbit := true, ch := 255 }
    | b :: rest => { s with data := rest, ch := b }

/-- The byte-consuming part of the comment loop, structurally on the
remaining input: stop at a newline; at the end of the input the two final
`next_char` calls set the eof bit and then yield the loop-ending newline. -/
def skip_comment_go : List Nat → Nat → lex_stream
  | data, 10 => { data := data, eofbit := false, ch := 10 }
  | [], _ => { data := [], eofbit := true, ch := 10 }
  | b :: rest, _ => skip_comment_go rest b

/-- The comment loop `while (ch != '\n') next_char();` (lexer line 436). -/
def skip_comment (s : lex_stream) : lex_stream :=
  if s.eofbit then (if s.ch = 10 then s else { s with ch := 10 })
  else skip_comment_go s.data s.ch

inductive lex_mode where
  | MODE_NONE | MODE_NUMBER | MODE_WORD | MODE_SYMBOL | MODE_STRING
deriving DecidableEq

/-- The lexer's mutable state (the locals of `parse_tokens`).
`tmp_symbol = none` models `SYMBOL_INVALID`. -/
structure lex_state where
  stream : lex_stream
  mode : lex_mode
  wordbuf : List Nat
  num_is_float : Bool
  make_symlit : Bool
  strbuf : List Nat
  tmp_symbol : Option token_symbol
  tokens : List token
deriving DecidableEq

/-- The `check_line_cont` lambda: the last pushed token is a `\` symbol. -/
def check_line_cont (st : lex_state) : Bool :=
  match st.tokens.getLast? with
  | some (.symbol .SYMBOL_LINE_CONT) => true
  | _ => false

inductive lex_stepres where
  | cont (st : lex_state) : lex_stepres
  | err (msg : String) : lex_stepres
  | crash (msg : String) : lex_stepres
deriving DecidableEq

/-- `char wordbuf[64]`: a write beyond the 64 slots is out of bounds. -/
def buf_append (buf : List Nat) (c : Nat) : Option (List Nat) :=
  if buf.length ≥ 64 then none else some (buf ++ [c])

/-- One iteration of the `while (true)` switch of `parse_tokens` (lexer
lines 299-465). The NUL terminator writes are modelled by the same
capacity check as the content writes (they target the same buffer). -/
def lex_step (st : lex_state) : lex_stepres :=
  match st.mode with
  | .MODE_NONE =>
    let ch := st.stream.ch
    if is_space ch then
      if ch = 10 then
        if check_line_cont st then
          -- remove line cont token; no newline token
          .cont { st with tokens := st.tokens.dropLast, stream := next_char st.stream }
        else if st.tokens.length > 0 ∧ st.tokens.getLast? ≠ some .line_end then
          .cont { st with tokens := st.tokens ++ [.line_end], stream := next_char st.stream }
        else
          .cont { st with stream := next_char st.stream }
      else
        .cont { st with stream := next_char st.stream }
    else if ch = 34 then
      .cont { st with mode := .MODE_STRING, strbuf := [], stream := next_char st.stream }
    else
      -- wordbuf_i = 0; dispatch on the character class without consuming
      if is_alpha ch ∨ ch = 95 then
        .cont { st with wordbuf := [], mode := .MODE_WORD }
      else if is_digit ch then
        .cont { st with wordbuf := [], mode := .MODE_NUMBER, num_is_float := false }
      else
        .cont { st with wordbuf := [], mode := .MODE_SYMBOL, tmp_symbol := none }
  | .MODE_NUMBER =>
    let st := { st with make_symlit := false }
    let ch := st.stream.ch
    if ¬(is_alnum ch) ∧ ch ≠ 46 then
      match buf_append st.wordbuf 0 with
      | none => .crash "wordbuf overflow"
      | some _ =>
        if st.num_is_float then
          let r := strtod_model st.wordbuf
          if r.1 ≠ st.wordbuf.length then .err "could not parse number literal"
          else .cont { st with tokens := st.tokens ++ [.float r.2], mode := .MODE_NONE }
        else
          let r := strtol10 st.wordbuf
          if r.1 ≠ st.wordbuf.length then .err "could not parse number literal"
          else .cont { st with tokens := st.tokens ++ [.integer (wrap32 r.2)], mode := .MODE_NONE }
    else
      let st := if ch = 46 then { st with num_is_float := true } else st
      match buf_append st.wordbuf ch with
      | none => .crash "wordbuf overflow"
      | some buf => .cont { st with wordbuf := buf, stream := next_char st.stream }
  | .MODE_WORD =>
    let ch := to_lower st.stream.ch
    if ¬(is_alnum ch ∨ ch = 95) then
      match buf_append st.wordbuf 0 with
      | none => .crash "wordbuf overflow"
      | some _ =>
        let tok :=
          if st.make_symlit then token.symbol_literal st.wordbuf
          else
            match identify_keyword st.wordbuf with
            | some kw => token.keyword kw
            | none => make_word st.wordbuf
        .cont { st with tokens := st.tokens ++ [tok], mode := .MODE_NONE, make_symlit := false }
    else
      match buf_append st.wordbuf ch with
      | none => .crash "wordbuf overflow"
      | some buf => .cont { st with wordbuf := buf, stream := next_char st.stream }
  | .MODE_SYMBOL =>
    let st := { st with make_symlit := false }
    match buf_append st.wordbuf st.stream.ch with
    | none => .crash "wordbuf overflow"
    | some buf =>
      match identify_symbol buf with
      | none =>
        match st.tmp_symbol with
        | none => .err "invalid symbol"
        | some sym =>
          if sym = .SYMBOL_COMMENT then
            -- discard rest of line as it is a comment line
            .cont { st with wordbuf := buf, stream := skip_comment st.stream,
                            mode := .MODE_NONE }
          else if sym = .SYMBOL_POUND then
            .cont { st with wordbuf := buf, make_symlit := true, mode := .MODE_NONE }
          else
            .cont { st with wordbuf := buf, tokens := st.tokens ++ [.symbol sym],
                            mode := .MODE_NONE }
      | some sym =>
        .cont { st with wordbuf := buf, tmp_symbol := some sym, stream := next_char st.stream }
  | .MODE_STRING =>
    let st := { st with make_symlit := false }
    if st.stream.ch = 34 then
      .cont { st with tokens := st.tokens ++ [.string st.strbuf], mode := .MODE_NONE,
                      stream := next_char st.stream }
    else
      .cont { st with strbuf := st.strbuf ++ [st.stream.ch], stream := next_char st.stream }

inductive lexres where
  | ok (toks : List token) : lexres
  | err (msg : String) : lexres
  | crash (msg : String) : lexres
  | nofuel : lexres
deriving DecidableEq

/-- The final flush (lexer lines 467-469): append a line end unless the
token list is empty or already ends in one. -/
def lex_flush (toks : List token) : List token :=
  if toks.length > 0 ∧ toks.getLast? ≠ some .line_end then toks ++ [.line_end] else toks

/-- The `while (true)` loop (exit condition at the top: eof with the state
machine idle), fuel-bounded. -/
def lex_loop : Nat → lex_state → lexres
  | 0, _ => .nofuel
  | fuel + 1, st =>
    if st.stream.eofbit ∧ st.mode = .MODE_NONE then .ok (lex_flush st.tokens)
    else
      match lex_step st with
      | .cont st2 => lex_loop fuel st2
      | .err m => .err m
      | .crash m => .crash m

/-- `lingo::ast::parse_tokens` on a byte stream. -/
def parse_tokens (fuel : Nat) (input : bstr) : lexres :=
  let s0 : lex_stream :=
    match input with
    | [] => { data := [], eofbit := true, ch := 255 }
    | b :: rest => { data := rest, eofbit := false, ch := b }
  lex_loop fuel
    { stream := s0, mode := .MODE_NONE, wordbuf := [], num_is_float := false,
      make_symlit := false, strbuf := [], tmp_symbol := none, tokens := [] }

/-! ## AST (src/src/lingo/lingo.hpp, namespace `ast`) -/

inductive ast_scope where
  | SCOPE_PROPERTY | SCOPE_GLOBAL | SCOPE_LOCAL
deriving DecidableEq

inductive ast_binop where
  | EXPR_BINOP_ADD | EXPR_BINOP_SUB | EXPR_BINOP_MUL | EXPR_BINOP_DIV
  | EXPR_BINOP_MOD | EXPR_BINOP_AND | EXPR_BINOP_OR
  | EXPR_BINOP_LT | EXPR_BINOP_GT | EXPR_BINOP_LE | EXPR_BINOP_GE
  | EXPR_BINOP_EQ | EXPR_BINOP_NEQ
  | EXPR_BINOP_CONCAT | EXPR_BINOP_CONCAT_WITH_SPACE
deriving DecidableEq

inductive ast_unop where
  | EXPR_UNOP_NEG | EXPR_UNOP_NOT
deriving DecidableEq

inductive ast_the_id where
  | EXPR_THE_MOVIE_PATH | EXPR_THE_FRAME | EXPR_THE_DIR_SEPARATOR
  | EXPR_THE_MILLISECONDS | EXPR_THE_RANDOM_SEED | EXPR_THE_PLATFORM
deriving DecidableEq

/-- `ast_expr_literal` (the tag plus its payload). -/
inductive ast_literal where
  | lfloat (q : Rat) : ast_literal
  | lint (i : Int) : ast_literal
  | lstring (s : bstr) : ast_literal
  | lvoid : ast_literal
  | lsymbol (s : bstr) : ast_literal
deriving DecidableEq

/-- `ast_expr` and its subclasses as a sum. -/
inductive ast_expr where
  | binop (op : ast_binop) (left right : ast_expr) : ast_expr
  | unop (op : ast_unop) (e : ast_expr) : ast_expr
  | the (id : ast_the_id) : ast_expr
  | literal (l : ast_literal) : ast_expr
  | elist (items : List ast_expr) : ast_expr
  | eprop_list (pairs : List (ast_expr × ast_expr)) : ast_expr
  | identifier (name : bstr) (scope : ast_scope) : ast_expr
  | dot (e : ast_expr) (index : bstr) : ast_expr
  | eindex (e : ast_expr) (index_from : ast_expr) (index_to : Option ast_expr) : ast_expr
  | call (method : ast_expr) (args : List ast_expr) : ast_expr

/-- `ast_statement` and its subclasses as a sum. An if statement holds its
branches as (condition, body) pairs. -/
inductive ast_statement where
  | sreturn (e : Option ast_expr) : ast_statement
  | sassign (lvalue rvalue : ast_expr) : ast_statement
  | sexpr (e : ast_expr) : ast_statement
  | sif (branches : List (ast_expr × List ast_statement)) (has_else : Bool)
      (else_branch : List ast_statement) : ast_statement
  | srepeat_while (cond : ast_expr) (body : List ast_statement) : ast_statement
  | srepeat_to (iter init stop : ast_expr) (down : Bool)
      (body : List ast_statement) : ast_statement
  | srepeat_in (iter iterable : ast_expr) (body : List ast_statement) : ast_statement
  | sexit_repeat : ast_statement
  | snext_repeat : ast_statement
  | sput (e : ast_expr) : ast_statement
  | sput_on (e target : ast_expr) (before : Bool) : ast_statement
  | scase (e : ast_expr) (clauses : List (List ast_expr × List ast_statement))
      (has_otherwise : Bool) (otherwise : List ast_statement) : ast_statement

/-- `ast_handler_decl`. -/
structure ast_handler_decl where
  name : bstr
  params : List bstr
  body : List ast_statement
  locals : List bstr

/-- `ast_root`. -/
structure ast_root where
  properties : List bstr
  handlers : List ast_handler_decl

/-! ## Scopes (src/src/lingo_ast.cpp lines 53-111) -/

/-- `script_scope`: two `std::set<std::string>`, modelled as sorted lists
(see `set_insert`). -/
structure script_scope where
  properties : List bstr
  globals : List bstr
deriving DecidableEq

/-- `script_scope::has_var`: properties first, then globals. -/
def script_scope.has_var (s : script_scope) (name : bstr) : Option ast_scope :=
  if set_mem name s.properties then some .SCOPE_PROPERTY
  else if set_mem name s.globals then some .SCOPE_GLOBAL
  else none

/-- `handler_scope` (its parent pointer is always the script scope during
parsing, so it is embedded by value). -/
structure handler_scope where
  globals : List bstr
  locals : List bstr
  params : List bstr
  parent : script_scope
deriving DecidableEq

/-- `handler_scope::has_var`: the parent lookup runs first; a parent
Property wins outright; then locals, params, handler globals; finally the
parent result (a script global) is passed through. -/
def handler_scope.has_var (s : handler_scope) (name : bstr) : Option ast_scope :=
  let parent_var := s.parent.has_var name
  match parent_var with
  | some .SCOPE_PROPERTY => some .SCOPE_PROPERTY
  | _ =>
    if set_mem name s.locals then some .SCOPE_LOCAL
    else if set_mem name s.params then some .SCOPE_LOCAL
    else if set_mem name s.globals then some .SCOPE_GLOBAL
    else parent_var

/-! ## Parser (src/src/lingo_ast.cpp: `lingo::ast::parse_ast`)

`parse_exception` is modelled by an error result, the recursive descent by
fuel-indexed recursion (`nofuel` is a model artifact: the source recursion
terminates on every input because each call consumes a token, and every
concrete claim below supplies ample fuel). -/

inductive pres (α : Type) where
  | ok (a : α) : pres α
  | perr (msg : String) : pres α
  | nofuel : pres α
deriving DecidableEq

instance : Monad pres where
  pure := .ok
  bind r f := match r with
    | .ok a => f a
    | .perr m => .perr m
    | .nofuel => .nofuel

/-- `token_reader::peek()`. -/
def rd_peek (toks : List token) (idx : Nat) : pres token :=
  match toks.get? idx with
  | some t => .ok t
  | none => .perr "Unexpected EOF"

/-- `token_reader::peek(offset)`. -/
def rd_peekn (toks : List token) (idx off : Nat) : pres token :=
  match toks.get? (idx + off) with
  | some t => .ok t
  | none => .perr "Unexpected EOF"

/-- `token_reader::pop()`. -/
def rd_pop (toks : List token) (idx : Nat) : pres (token × Nat) :=
  match toks.get? idx with
  | some t => .ok (t, idx + 1)
  | none => .perr "Unexpected EOF"

/-- `token_reader::eof()`. -/
def rd_eof (toks : List token) (idx : Nat) : Bool := idx ≥ toks.length

def token.is_word_id : token → token_word_id → Bool
  | .word _ i, id => i = id
  | _, _ => false

def token.is_keyword_k : token → token_keyword → Bool
  | .keyword k, k2 => k = k2
  | _, _ => false

def token.is_symbol_s : token → token_symbol → Bool
  | .symbol s, s2 => s = s2
  | _, _ => false

def token.is_word_type : token → Bool
  | .word _ _ => true
  | _ => false

def token.is_line_end : token → Bool
  | .line_end => true
  | _ => false

def token.is_float_tok : token → Bool
  | .float _ => true
  | _ => false

def token.is_int_tok : token → Bool
  | .integer _ => true
  | _ => false

def token.is_string_tok : token → Bool
  | .string _ => true
  | _ => false

/-- The spelling carried by a Word token (empty otherwise). -/
def token.word_str : token → bstr
  | .word s _ => s
  | _ => []

/-- `tok_expect(tok, TOKEN_LINE_END)` and friends. -/
def expect_line_end (t : token) : pres Unit :=
  if t.is_line_end then .ok () else .perr "expected newline"

def expect_word_type (t : token) : pres Unit :=
  if t.is_word_type then .ok () else .perr "expected word"

def expect_symbol (t : token) (s : token_symbol) : pres Unit :=
  if t.is_symbol_s s then .ok () else .perr "expected symbol"

def expect_word_id (t : token) (w : token_word_id) : pres Unit :=
  if t.is_word_id w then .ok () else .perr "expected word id"

def expect_keyword (t : token) (k : token_keyword) : pres Unit :=
  if t.is_keyword_k k then .ok () else .perr "expected keyword"

/-- The Lv0 comparison operators (with `=` admitted only outside
assignment-lhs context). -/
def lv0_op (t : token) (assignment : Bool) : Option ast_binop :=
  if t.is_symbol_s .SYMBOL_EQUAL ∧ ¬assignment then some .EXPR_BINOP_EQ
  else if t.is_symbol_s .SYMBOL_NEQUAL then some .EXPR_BINOP_NEQ
  else if t.is_symbol_s .SYMBOL_GT then some .EXPR_BINOP_GT
  else if t.is_symbol_s .SYMBOL_LT then some .EXPR_BINOP_LT
  else if t.is_symbol_s .SYMBOL_GE then some .EXPR_BINOP_GE
  else if t.is_symbol_s .SYMBOL_LE then some .EXPR_BINOP_LE
  else none

def lv1_op (t : token) : Option ast_binop :=
  if t.is_symbol_s .SYMBOL_AMPERSAND then some .EXPR_BINOP_CONCAT
  else if t.is_symbol_s .SYMBOL_DOUBLE_AMPERSAND then some .EXPR_BINOP_CONCAT_WITH_SPACE
  else none

def lv2_op (t : token) : Option ast_binop :=
  if t.is_symbol_s .SYMBOL_PLUS then some .EXPR_BINOP_ADD
  else if t.is_symbol_s .SYMBOL_MINUS then some .EXPR_BINOP_SUB
  else none

def lv3_op (t : token) : Option ast_binop :=
  if t.is_symbol_s .SYMBOL_STAR then some .EXPR_BINOP_MUL
  else if t.is_symbol_s .SYMBOL_SLASH then some .EXPR_BINOP_DIV
  else if t.is_keyword_k .KEYWORD_MOD then some .EXPR_BINOP_MOD
  else if t.is_keyword_k .KEYWORD_AND then some .EXPR_BINOP_AND
  else if t.is_keyword_k .KEYWORD_OR then some .EXPR_BINOP_OR
  else none

/-- The built-in identifier table of the atom case (parser lines 538-570).
`pi` is the double literal 3.14159265358979323846 kept as an exact
decimal rational. -/
def builtin_atom (s : bstr) : Option ast_literal :=
  if s = bytes "true" then some (.lint 1)
  else if s = bytes "false" then some (.lint 0)
  else if s = bytes "pi" then some (.lfloat (314159265358979323846 / 100000000000000000000))
  else if s = bytes "quote" then some (.lstring [34])
  else if s = bytes "empty" then some (.lstring [])
  else if s = bytes "enter" then some (.lstring [3])
  else if s = bytes "return" then some (.lstring [13])
  else if s = bytes "space" then some (.lstring [32])
  else if s = bytes "tab" then some (.lstring [9])
  else if s = bytes "backspace" then some (.lstring [8])
  else if s = bytes "void" then some .lvoid
  else none


/-- `check_handler_invocation_statement` (parser lines 632-642). -/
def check_handler_invocation (toks : List token) (idx : Nat) : pres Bool := do
  let t ← rd_peek toks idx
  if ¬t.is_word_type then .ok false
  else do
    let nt ← rd_peekn toks idx 1
    .ok (nt.is_line_end || nt.is_word_type || nt.is_string_tok ||
         nt.is_float_tok || nt.is_int_tok || nt.is_symbol_s .SYMBOL_POUND)

/-- The parser's mutually recursive procedures, gathered in one record so
that the fuel-indexed recursion (`parse_fuel`) unfolds one level at a time:
`e` is `parse_expression`, `bl` the binary-operator loops, `pl` the postfix
loop, `ca` the parenthesized-call argument loop, `dl` the line-discard
loop, `stm` `parse_statement`, `il` the if-statement loop, `ib` the
if-branch body loop, `rb` `read_repeat_body`, `ia` the bare-call argument
loop. -/
structure parser_pack where
  e : Nat → List token → Nat → handler_scope → Bool → pres (ast_expr × Nat)
  bl : Nat → ast_expr → List token → Nat → handler_scope → Bool → pres (ast_expr × Nat)
  pl : ast_expr → List token → Nat → handler_scope → pres (ast_expr × Nat)
  ca : List ast_expr → Nat → List token → Nat → handler_scope → pres (List ast_expr × Nat)
  dl : List token → Nat → pres Nat
  stm : List token → Nat → handler_scope → pres (ast_statement × Nat × handler_scope)
  il : List token → Nat → handler_scope → List (ast_expr × List ast_statement) → Bool →
      List ast_statement → Bool →
      pres (List (ast_expr × List ast_statement) × Bool × List ast_statement × Nat × handler_scope)
  ib : List token → Nat → handler_scope → pres (List ast_statement × Nat × handler_scope)
  rb : List token → Nat → handler_scope → pres (List ast_statement × Nat × handler_scope)
  ia : List ast_expr → Nat → List token → Nat → handler_scope → pres (List ast_expr × Nat)


/-- The `while (!reader.pop().is_a(TOKEN_LINE_END));` line-discard loops of
the repeat headers. -/
def step_dl (p : parser_pack) (toks : List token) (idx : Nat) : pres Nat :=
  do
    let (t, idx) ← rd_pop toks idx
    if t.is_line_end then .ok idx else p.dl toks idx


/-- `parse_expression<Lv>` (parser lines 172-626). The template level is a
runtime argument here; levels beyond 6 behave as the atom level (they are
never reached: level 5 descends to 6). -/
def step_e (p : parser_pack) (lv : Nat) (toks : List token) (idx : Nat)
    (scope : handler_scope) (assignment : Bool) : pres (ast_expr × Nat) :=

    match lv with
    | 0 => do
      let (left, idx) ← p.e 1 toks idx scope assignment
      p.bl 0 left toks idx scope assignment
    | 1 => do
      let (left, idx) ← p.e 2 toks idx scope false
      p.bl 1 left toks idx scope false
    | 2 => do
      let (left, idx) ← p.e 3 toks idx scope false
      p.bl 2 left toks idx scope false
    | 3 => do
      let (left, idx) ← p.e 4 toks idx scope false
      p.bl 3 left toks idx scope false
    | 4 => do
      let tok ← rd_peek toks idx
      if tok.is_symbol_s .SYMBOL_MINUS then do
        let idx := idx + 1  -- reader.pop()
        -- if the token at peek(1) is a number literal, return Literal(X)
        -- directly (note: peek(1), not peek(); translated as written)
        let lit ← rd_peekn toks idx 1
        match lit with
        | .float q => .ok (.literal (.lfloat q), idx)
        | .integer i => .ok (.literal (.lint i), idx)
        | _ => do
          let (e, idx) ← p.e 5 toks idx scope false
          .ok (.unop .EXPR_UNOP_NEG e, idx)
      else if tok.is_keyword_k .KEYWORD_NOT then do
        let idx := idx + 1
        let (e, idx) ← p.e 5 toks idx scope false
        .ok (.unop .EXPR_UNOP_NOT e, idx)
      else
        p.e 5 toks idx scope false
    | 5 => do
      let (e, idx) ← p.e 6 toks idx scope false
      p.pl e toks idx scope
    | _ => do
      let (tok, idx) ← rd_pop toks idx
      if tok.is_symbol_s .SYMBOL_LPAREN then do
        let (e, idx) ← p.e 0 toks idx scope false
        let (term, idx) ← rd_pop toks idx
        if term.is_symbol_s .SYMBOL_RPAREN then .ok (e, idx)
        else .perr "expected symbol rparen"
      else if tok.is_word_id .WORD_ID_THE then do
        let (id, idx) ← rd_pop toks idx
        let _ ← expect_word_type id
        if id.word_str = bytes "moviepath" then .ok (.the .EXPR_THE_MOVIE_PATH, idx)
        else if id.word_str = bytes "frame" then .ok (.the .EXPR_THE_FRAME, idx)
        else if id.word_str = bytes "dirseparator" then .ok (.the .EXPR_THE_DIR_SEPARATOR, idx)
        else if id.word_str = bytes "randomseed" then .ok (.the .EXPR_THE_RANDOM_SEED, idx)
        else .perr "invalid the identifier"
      else
        match tok with
        | .word s _ =>
          (match builtin_atom s with
          | some l => .ok (.literal l, idx)
          | none => do
            -- undeclared identifiers are admitted when a lparen follows
            -- (dynamic handler call); their scope is tentatively Local
            let func_call := !(rd_eof toks idx) &&
              (match toks.get? idx with
               | some t => t.is_symbol_s .SYMBOL_LPAREN
               | none => false)
            match scope.has_var s with
            | none =>
              if func_call then .ok (.identifier s .SCOPE_LOCAL, idx)
              else .perr "use of undeclared variable"
            | some var_scope =>
              .ok (.identifier s (if func_call then .SCOPE_LOCAL else var_scope), idx))
        | .float q => .ok (.literal (.lfloat q), idx)
        | .integer i => .ok (.literal (.lint i), idx)
        | .string s => .ok (.literal (.lstring s), idx)
        | _ => .perr "unexpected token"


/-- The binary-operator `while` loops of levels 0-3 (left-associative
chaining). -/
def step_bl (p : parser_pack) (lv : Nat) (left : ast_expr)
    (toks : List token) (idx : Nat) (scope : handler_scope)
    (assignment : Bool) : pres (ast_expr × Nat) :=
  do
    let tok ← rd_peek toks idx
    let op? :=
      match lv with
      | 0 => lv0_op tok assignment
      | 1 => lv1_op tok
      | 2 => lv2_op tok
      | _ => lv3_op tok
    match op? with
    | none => .ok (left, idx)
    | some op => do
      let idx := idx + 1  -- reader.pop()
      let (right, idx) ← p.e (lv + 1) toks idx scope false
      p.bl lv (.binop op left right) toks idx scope assignment


/-- The level-5 postfix `while (true)` loop: call, dot, index. -/
def step_pl (p : parser_pack) (e : ast_expr) (toks : List token)
    (idx : Nat) (scope : handler_scope) : pres (ast_expr × Nat) :=
  do
    let op ← rd_peek toks idx
    if op.is_symbol_s .SYMBOL_LPAREN then do
      let idx := idx + 1
      let (args, idx) ← p.ca [] 0 toks idx scope
      let idx := idx + 1  -- pop off rparen
      p.pl (.call e args) toks idx scope
    else if op.is_symbol_s .SYMBOL_PERIOD then do
      let idx := idx + 1
      let (id, idx) ← rd_pop toks idx
      let _ ← expect_word_type id
      p.pl (.dot e id.word_str) toks idx scope
    else if op.is_symbol_s .SYMBOL_LBRACKET then do
      let idx := idx + 1
      let (inner, idx) ← p.e 0 toks idx scope false
      let (term, idx) ← rd_pop toks idx
      if term.is_symbol_s .SYMBOL_RBRACKET then
        p.pl (.eindex e inner none) toks idx scope
      else .perr "expected symbol rbracket"
    else
      .ok (e, idx)


/-- The parenthesized-call argument loop (parser lines 420-437): only the
first comma is optional, later ones are required. -/
def step_ca (p : parser_pack) (args : List ast_expr) (argn : Nat)
    (toks : List token) (idx : Nat) (scope : handler_scope) :
    pres (List ast_expr × Nat) :=
  do
    let t ← rd_peek toks idx
    if t.is_symbol_s .SYMBOL_RPAREN then .ok (args, idx)
    else do
      let (arg, idx) ← p.e 0 toks idx scope false
      let tok ← rd_peek toks idx
      let idx ←
        if argn > 0 then
          if ¬tok.is_symbol_s .SYMBOL_RPAREN then do
            let _ ← expect_symbol tok .SYMBOL_COMMA
            pure (idx + 1)
          else pure idx
        else if tok.is_symbol_s .SYMBOL_COMMA then pure (idx + 1)
        else pure idx
      p.ca (args ++ [arg]) (argn + 1) toks idx scope



/-- `parse_statement` (parser lines 644-1037). Returns the statement, the
new cursor, and the (possibly extended) handler scope. -/
def step_stm (p : parser_pack) (toks : List token) (idx : Nat)
    (scope : handler_scope) : pres (ast_statement × Nat × handler_scope) :=
  do
    let tok ← rd_peek toks idx
    -- variable assignment: Word '=' ...
    let is_assign ←
      if tok.is_word_type then do
        let nt ← rd_peekn toks idx 1
        pure (nt.is_symbol_s .SYMBOL_EQUAL)
      else pure false
    if is_assign then do
      let (id_tok, idx) ← rd_pop toks idx
      let idx := idx + 1  -- pop equals
      let (value_expr, idx) ← p.e 0 toks idx scope false
      let (nl, idx) ← rd_pop toks idx
      let _ ← expect_line_end nl
      let var_name := id_tok.word_str
      -- declare a new local when the name is unbound
      let (var_scope, scope) :=
        match scope.has_var var_name with
        | none => (ast_scope.SCOPE_LOCAL, { scope with locals := set_insert var_name scope.locals })
        | some s => (s, scope)
      .ok (.sassign (.identifier var_name var_scope) value_expr, idx, scope)
    else if tok.is_word_id .WORD_ID_RETURN then do
      let idx := idx + 1
      let nt ← rd_peek toks idx
      let (ret_expr, idx) ←
        if ¬nt.is_line_end then do
          let (e, idx) ← p.e 0 toks idx scope false
          pure (some e, idx)
        else pure (none, idx)
      let (nl, idx) ← rd_pop toks idx
      let _ ← expect_line_end nl
      .ok (.sreturn ret_expr, idx, scope)
    else if tok.is_word_id .WORD_ID_PUT then do
      let idx := idx + 1
      let (e, idx) ← p.e 0 toks idx scope false
      let nt ← rd_peek toks idx
      let (append_mode, source_str?, idx) ←
        if nt.is_word_id .WORD_ID_AFTER then do
          let (src, idx) ← p.e 0 toks (idx + 1) scope false
          pure (1, some src, idx)
        else if nt.is_word_id .WORD_ID_BEFORE then do
          let (src, idx) ← p.e 0 toks (idx + 1) scope false
          pure (2, some src, idx)
        else pure (0, none, idx)
      let (nl, idx) ← rd_pop toks idx
      let _ ← expect_line_end nl
      match append_mode, source_str? with
      | 0, _ => .ok (.sput e, idx, scope)
      | 1, some target => .ok (.sput_on e target false, idx, scope)
      | 2, some target => .ok (.sput_on e target true, idx, scope)
      | _, _ => .perr "internal error"
    else if tok.is_word_id .WORD_ID_IF then do
      let idx := idx + 1
      let (branches, has_else, else_branch, idx, scope) ←
        p.il toks idx scope [] false [] false
      .ok (.sif branches has_else else_branch, idx, scope)
    else if tok.is_word_id .WORD_ID_REPEAT then do
      let idx := idx + 1
      let (tok, idx) ← rd_pop toks idx
      if tok.is_word_id .WORD_ID_WITH then do
        let (id_tok, idx) ← rd_pop toks idx
        let _ ← expect_word_type id_tok
        let (id_scope, scope) :=
          match scope.has_var id_tok.word_str with
          | none => (ast_scope.SCOPE_LOCAL,
                     { scope with locals := set_insert id_tok.word_str scope.locals })
          | some s => (s, scope)
        let id_expr := ast_expr.identifier id_tok.word_str id_scope
        let (tok, idx) ← rd_pop toks idx
        if tok.is_symbol_s .SYMBOL_EQUAL then do
          let (init_expr, idx) ← p.e 0 toks idx scope false
          let nt ← rd_peek toks idx
          let (down, idx) ← if nt.is_word_id .WORD_ID_DOWN then pure (true, idx + 1)
                            else pure (false, idx)
          let (to_tok, idx) ← rd_pop toks idx
          let _ ← expect_word_id to_tok .WORD_ID_TO
          let (stop_expr, idx) ← p.e 0 toks idx scope false
          let idx ← p.dl toks idx
          let (body, idx, scope) ← p.rb toks idx scope
          .ok (.srepeat_to id_expr init_expr stop_expr down body, idx, scope)
        else if tok.is_word_id .WORD_ID_IN then do
          let (iterable, idx) ← p.e 0 toks idx scope false
          let idx ← p.dl toks idx
          let (body, idx, scope) ← p.rb toks idx scope
          .ok (.srepeat_in id_expr iterable body, idx, scope)
        else .perr "expected equal or in"
      else if tok.is_word_id .WORD_ID_WHILE then do
        let (cond, idx) ← p.e 0 toks idx scope false
        let idx ← p.dl toks idx
        let (body, idx, scope) ← p.rb toks idx scope
        .ok (.srepeat_while cond body, idx, scope)
      else .perr "expected while or with"
    else do
      let is_invoc ← check_handler_invocation toks idx
      if is_invoc then do
        let (id_tok, idx) ← rd_pop toks idx
        let _ ← expect_word_type id_tok
        let ident := ast_expr.identifier id_tok.word_str .SCOPE_LOCAL
        let (args, idx) ← p.ia [] 0 toks idx scope
        let idx := idx + 1  -- pop newline
        .ok (.sexpr (.call ident args), idx, scope)
      else do
        -- expression assignment or evaluation
        let (e, idx) ← p.e 0 toks idx scope true
        let nt ← rd_peek toks idx
        if nt.is_symbol_s .SYMBOL_EQUAL then do
          let idx := idx + 1
          let (value_expr, idx) ← p.e 0 toks idx scope false
          let (nl, idx) ← rd_pop toks idx
          let _ ← expect_line_end nl
          .ok (.sassign e value_expr, idx, scope)
        else do
          let (nl, idx) ← rd_pop toks idx
          let _ ← expect_line_end nl
          .ok (.sexpr e, idx, scope)


/-- The if-statement `while (true)` loop (parser lines 759-853),
accumulating branches. -/
def step_il (p : parser_pack) (toks : List token) (idx : Nat)
    (scope : handler_scope) (branches : List (ast_expr × List ast_statement))
    (has_else : Bool) (else_branch : List ast_statement) (else_allowed : Bool) :
    pres (List (ast_expr × List ast_statement) × Bool × List ast_statement × Nat × handler_scope) :=
  do
    -- check whether this is an else if or a terminating else
    let (is_else, idx) ←
      if else_allowed then do
        let t ← rd_peek toks idx
        if t.is_word_id .WORD_ID_IF then pure (false, idx + 1)
        else pure (true, idx)
      else pure (false, idx)
    let (cond?, idx) ←
      if ¬is_else then do
        let (cond, idx) ← p.e 0 toks idx scope false
        let t ← rd_peek toks idx
        if ¬t.is_keyword_k .KEYWORD_THEN then .perr "expected keyword then"
        else pure (some cond, idx + 1)
      else pure (none, idx)
    let nt ← rd_peek toks idx
    if nt.is_line_end then do
      let idx := idx + 1
      let (body, idx, scope) ← p.ib toks idx scope
      let (branches, has_else, else_branch) :=
        if is_else then (branches, true, body)
        else
          match cond? with
          | some cond => (branches ++ [(cond, body)], has_else, else_branch)
          | none => (branches, has_else, else_branch)
      let t ← rd_peek toks idx
      let _ ← if is_else then expect_word_id t .WORD_ID_END else pure ()
      if t.is_word_id .WORD_ID_END then do
        let idx := idx + 1
        let (t2, idx) ← rd_pop toks idx
        if ¬t2.is_word_id .WORD_ID_IF then .perr "expected end if"
        else do
          let (nl, idx) ← rd_pop toks idx
          let _ ← expect_line_end nl
          .ok (branches, has_else, else_branch, idx, scope)
      else do
        let (t2, idx) ← rd_pop toks idx
        let _ ← expect_keyword t2 .KEYWORD_ELSE
        p.il toks idx scope branches has_else else_branch true
    else do
      let (stm, idx, scope) ← p.stm toks idx scope
      let (branches, has_else, else_branch) :=
        if is_else then (branches, true, [stm])
        else
          match cond? with
          | some cond => (branches ++ [(cond, [stm])], has_else, else_branch)
          | none => (branches, has_else, else_branch)
      let t ← rd_peek toks idx
      if ¬t.is_keyword_k .KEYWORD_ELSE then
        .ok (branches, has_else, else_branch, idx, scope)
      else
        p.il toks (idx + 1) scope branches has_else else_branch true


/-- The block-body loop of an if branch: statements until `end` or
`else`. -/
def step_ib (p : parser_pack) (toks : List token) (idx : Nat)
    (scope : handler_scope) : pres (List ast_statement × Nat × handler_scope) :=
  do
    let t ← rd_peek toks idx
    if t.is_word_id .WORD_ID_END ∨ t.is_keyword_k .KEYWORD_ELSE then
      .ok ([], idx, scope)
    else do
      let (stm, idx, scope) ← p.stm toks idx scope
      let (rest, idx, scope) ← p.ib toks idx scope
      .ok (stm :: rest, idx, scope)


/-- `read_repeat_body` (parser lines 863-877): statements until `end`,
then `end repeat` and a newline. -/
def step_rb (p : parser_pack) (toks : List token) (idx : Nat)
    (scope : handler_scope) : pres (List ast_statement × Nat × handler_scope) :=
  do
    let t ← rd_peek toks idx
    if ¬t.is_word_id .WORD_ID_END then do
      let (stm, idx, scope) ← p.stm toks idx scope
      let (stms, idx, scope) ← p.rb toks idx scope
      .ok (stm :: stms, idx, scope)
    else do
      let idx := idx + 1  -- pop end keyword
      let (t2, idx) ← rd_pop toks idx
      if ¬t2.is_word_id .WORD_ID_REPEAT then .perr "expected end repeat"
      else do
        let (nl, idx) ← rd_pop toks idx
        let _ ← expect_line_end nl
        .ok ([], idx, scope)


/-- The bare-call argument loop (parser lines 980-998): arguments until
the line end; only the first comma is optional. -/
def step_ia (p : parser_pack) (args : List ast_expr) (argn : Nat)
    (toks : List token) (idx : Nat) (scope : handler_scope) :
    pres (List ast_expr × Nat) :=
  do
    let t ← rd_peek toks idx
    if t.is_line_end then .ok (args, idx)
    else do
      let (arg, idx) ← p.e 0 toks idx scope false
      let tok ← rd_peek toks idx
      let idx ←
        if argn > 0 then
          if ¬tok.is_line_end then do
            let _ ← expect_symbol tok .SYMBOL_COMMA
            pure (idx + 1)
          else pure idx
        else if tok.is_symbol_s .SYMBOL_COMMA then pure (idx + 1)
        else pure idx
      p.ia (args ++ [arg]) (argn + 1) toks idx scope

/-- One step of the parser recursion: each procedure's body, with the
recursive calls taken from the previous fuel level. -/
def parse_step (p : parser_pack) : parser_pack :=
  { e := step_e p, bl := step_bl p, pl := step_pl p, ca := step_ca p,
    dl := step_dl p, stm := step_stm p, il := step_il p, ib := step_ib p,
    rb := step_rb p, ia := step_ia p }

/-- Fuel exhausted: every procedure reports `nofuel`. -/
def parser_bot : parser_pack :=
  { e := fun _ _ _ _ _ => .nofuel, bl := fun _ _ _ _ _ _ => .nofuel,
    pl := fun _ _ _ _ => .nofuel, ca := fun _ _ _ _ _ => .nofuel,
    dl := fun _ _ => .nofuel, stm := fun _ _ _ => .nofuel,
    il := fun _ _ _ _ _ _ _ => .nofuel, ib := fun _ _ _ => .nofuel,
    rb := fun _ _ _ => .nofuel, ia := fun _ _ _ _ _ => .nofuel }

/-- The parser procedures at a given fuel level. -/
def parse_fuel : Nat → parser_pack
  | 0 => parser_bot
  | fuel + 1 => parse_step (parse_fuel fuel)

/-- `parse_expression<Lv>` at the given fuel. -/
def parse_expression (fuel : Nat) (lv : Nat) (toks : List token) (idx : Nat)
    (scope : handler_scope) (assignment : Bool) : pres (ast_expr × Nat) :=
  (parse_fuel fuel).e lv toks idx scope assignment

/-- `parse_statement` at the given fuel. -/
def parse_statement (fuel : Nat) (toks : List token) (idx : Nat)
    (scope : handler_scope) : pres (ast_statement × Nat × handler_scope) :=
  (parse_fuel fuel).stm toks idx scope


/-- The id-list loop of a `global` / `property` declaration (parser lines
1049-1084). Duplicate declarations are parse errors. -/
def parse_decl_ids (fuel : Nat) (toks : List token) (idx : Nat)
    (decl_global : Bool) (sscope : script_scope) : pres (Nat × script_scope) :=
  match fuel with
  | 0 => .nofuel
  | fuel + 1 => do
    let (tok, idx) ← rd_pop toks idx
    let _ ← expect_word_type tok
    let name := tok.word_str
    let dup := if decl_global then set_mem name sscope.globals
               else set_mem name sscope.properties
    if dup then .perr "already declared"
    else do
      let sscope :=
        if decl_global then { sscope with globals := set_insert name sscope.globals }
        else { sscope with properties := set_insert name sscope.properties }
      if rd_eof toks idx then .ok (idx, sscope)
      else do
        let nt ← rd_peek toks idx
        if ¬nt.is_symbol_s .SYMBOL_COMMA then do
          if rd_eof toks idx then .ok (idx, sscope)
          else do
            let (nl, idx) ← rd_pop toks idx
            let _ ← expect_line_end nl
            .ok (idx, sscope)
        else
          parse_decl_ids fuel toks (idx + 1) decl_global sscope

/-- The parameter-list loop of a handler header (parser lines 1108-1131). -/
def parse_params (fuel : Nat) (toks : List token) (idx : Nat) (paren : Bool)
    (params : List bstr) (pset : List bstr) :
    pres (List bstr × List bstr × Nat) :=
  match fuel with
  | 0 => .nofuel
  | fuel + 1 => do
    let (tok, idx) ← rd_pop toks idx
    let ended := if paren then tok.is_symbol_s .SYMBOL_RPAREN else tok.is_line_end
    if ended then .ok (params, pset, idx)
    else do
      let _ ← expect_word_type tok
      if set_mem tok.word_str pset then .perr "parameter already declared"
      else do
        let params := params ++ [tok.word_str]
        let pset := set_insert tok.word_str pset
        let nt ← rd_peek toks idx
        let idx := if nt.is_symbol_s .SYMBOL_COMMA then idx + 1 else idx
        parse_params fuel toks idx paren params pset

/-- The handler-body loop (parser lines 1143-1148). -/
def parse_handler_body (fuel : Nat) (toks : List token) (idx : Nat)
    (scope : handler_scope) : pres (List ast_statement × Nat × handler_scope) :=
  match fuel with
  | 0 => .nofuel
  | fuel + 1 => do
    let t ← rd_peek toks idx
    if t.is_word_id .WORD_ID_END then .ok ([], idx, scope)
    else do
      let (stm, idx, scope) ← parse_statement fuel toks idx scope
      let (rest, idx, scope) ← parse_handler_body fuel toks idx scope
      .ok (stm :: rest, idx, scope)

/-- `parse_script_decl` (parser lines 1039-1166): a top-level `global` /
`property` declaration (returns no handler) or an `on` handler. -/
def parse_script_decl (fuel : Nat) (toks : List token) (idx : Nat)
    (sscope : script_scope) :
    pres (Option ast_handler_decl × Nat × script_scope) :=
  match fuel with
  | 0 => .nofuel
  | fuel + 1 => do
    let (tok, idx) ← rd_pop toks idx
    let decl_global := tok.is_word_id .WORD_ID_GLOBAL
    let decl_prop := tok.is_word_id .WORD_ID_PROPERTY
    if decl_global ∨ decl_prop then do
      let (idx, sscope) ← parse_decl_ids fuel toks idx decl_global sscope
      .ok (none, idx, sscope)
    else if tok.is_keyword_k .KEYWORD_ON then do
      let (name_tok, idx) ← rd_pop toks idx
      let _ ← expect_word_type name_tok
      let hscope : handler_scope :=
        { globals := [], locals := [], params := [], parent := sscope }
      let nt ← rd_peek toks idx
      let (paren, idx) := if nt.is_symbol_s .SYMBOL_LPAREN then (true, idx + 1) else (false, idx)
      let (params, pset, idx) ← parse_params fuel toks idx paren [] []
      let idx ←
        if paren then do
          let (nl, idx) ← rd_pop toks idx
          let _ ← expect_line_end nl
          pure idx
        else pure idx
      let hscope := { hscope with params := pset }
      let (body, idx, hscope) ← parse_handler_body fuel toks idx hscope
      let idx := idx + 1  -- pop end keyword
      let (nl, idx) ← rd_pop toks idx
      let _ ← expect_line_end nl
      -- func->locals is filled from the std::set, i.e. in sorted order
      .ok (some { name := name_tok.word_str, params := params, body := body,
                  locals := hscope.locals }, idx, sscope)
    else .perr "unexpected token"

/-- The top-level loop of `parse_ast` (parser lines 1168-1193). The root's
properties are copied from the script scope's `std::set` in sorted order. -/
def parse_ast_loop (fuel : Nat) (toks : List token) (idx : Nat)
    (sscope : script_scope) (handlers : List ast_handler_decl) :
    pres (ast_root) :=
  match fuel with
  | 0 => .nofuel
  | fuel + 1 =>
    if rd_eof toks idx then
      .ok { properties := sscope.properties, handlers := handlers }
    else do
      let (h?, idx, sscope) ← parse_script_decl fuel toks idx sscope
      match h? with
      | some h => parse_ast_loop fuel toks idx sscope (handlers ++ [h])
      | none => parse_ast_loop fuel toks idx sscope handlers

/-- `lingo::ast::parse_ast`. -/
def parse_ast (fuel : Nat) (toks : List token) : pres ast_root :=
  parse_ast_loop fuel toks 0 { properties := [], globals := [] } []

/-! ## Bytecode generator (src/src/lingo/lingo_bcgen.cpp) -/

/-- Generator result: normal value, `gen_exception` (caught and reported
as a `parse_error`), or `assert(false)` (debug abort: the process dies,
nothing is returned or reported). -/
inductive gres (α : Type) where
  | ok (a : α) : gres α
  | gerr (msg : String) : gres α
  | afail (msg : String) : gres α
deriving DecidableEq

instance : Monad gres where
  pure := .ok
  bind r f := match r with
    | .ok a => f a
    | .gerr m => .gerr m
    | .afail m => .afail m

/-- `gen_script_scope`: the names of the script's handlers
(`std::unordered_set`; only membership is observed). -/
structure gen_script_scope where
  handlers : List bstr
deriving DecidableEq

def gen_script_scope.has_handler (s : gen_script_scope) (id : bstr) : Bool :=
  s.handlers.contains id

/-- `std::unordered_map<std::string,int>::operator[] = v`. -/
def map_insert (k : bstr) (v : Nat) (m : List (bstr × Nat)) : List (bstr × Nat) :=
  if m.any (fun p => p.1 = k) then m.map (fun p => if p.1 = k then (k, v) else p)
  else m ++ [(k, v)]

def map_find (k : bstr) (m : List (bstr × Nat)) : Option Nat :=
  (m.find? (fun p => p.1 = k)).map Prod.snd

/-- `gen_handler_scope`: the per-chunk generator state. The string pool is
a list of records (the in-blob byte offsets and alignment padding of
`_alloc_string` are memory layout, abstracted to record indices). -/
structure gen_handler_scope where
  next_local_idx : Nat
  string_pool : List bstr
  instrs : List instr
  chunk_consts : List chunk_const
  local_name_refs : List Nat
  local_indices : List (bstr × Nat)
deriving DecidableEq

def gen_handler_scope.empty : gen_handler_scope :=
  { next_local_idx := 0, string_pool := [], instrs := [], chunk_consts := [],
    local_name_refs := [], local_indices := [] }

/-- `_alloc_string`: append a record, return its index. -/
def alloc_string (v : bstr) (sc : gen_handler_scope) : Nat × gen_handler_scope :=
  (sc.string_pool.length, { sc with string_pool := sc.string_pool ++ [v] })

/-- Whether a constant is a string/symbol entry of the given kind pointing
at the given pool contents (the dedup test of `_get_strbased_const`). -/
def const_matches_str (pool : List bstr) (isSym : Bool) (v : bstr) : chunk_const → Bool
  | .cstr p => ¬isSym ∧ pool.getD p [] = v
  | .csym p => isSym ∧ pool.getD p [] = v
  | _ => false

/-- `_get_strbased_const`: linear search of the pool for an equal entry of
the same type, else allocate. The returned index passes through a
`uint16_t` cast. -/
def get_strbased_const (isSym : Bool) (v : bstr) (sc : gen_handler_scope) :
    Nat × gen_handler_scope :=
  match sc.chunk_consts.findIdx? (const_matches_str sc.string_pool isSym v) with
  | some i => (i % 65536, sc)
  | none =>
    let (p, sc) := alloc_string v sc
    let cst := if isSym then chunk_const.csym p else chunk_const.cstr p
    ((sc.chunk_consts.length) % 65536, { sc with chunk_consts := sc.chunk_consts ++ [cst] })

/-- `get_literal(int32_t)` (the `GENERIC_GET_LITERAL` expansion). -/
def get_literal_int (v : Int) (sc : gen_handler_scope) : Nat × gen_handler_scope :=
  match sc.chunk_consts.findIdx? (fun c => c = .cint v) with
  | some i => (i % 65536, sc)
  | none => ((sc.chunk_consts.length) % 65536,
             { sc with chunk_consts := sc.chunk_consts ++ [.cint v] })

/-- `get_literal(double)`. -/
def get_literal_float (v : Rat) (sc : gen_handler_scope) : Nat × gen_handler_scope :=
  match sc.chunk_consts.findIdx? (fun c => c = .cfloat v) with
  | some i => (i % 65536, sc)
  | none => ((sc.chunk_consts.length) % 65536,
             { sc with chunk_consts := sc.chunk_consts ++ [.cfloat v] })

/-- `get_literal(const std::string&)`. -/
def get_literal_str (v : bstr) (sc : gen_handler_scope) : Nat × gen_handler_scope :=
  get_strbased_const false v sc

/-- `get_symbol`. -/
def get_symbol (v : bstr) (sc : gen_handler_scope) : Nat × gen_handler_scope :=
  get_strbased_const true v sc

/-- `register_local`: record the index, allocate the name string, append
the name reference. `next_local_idx` is a `uint16_t`. -/
def register_local (name : bstr) (sc : gen_handler_scope) : gen_handler_scope :=
  let sc := { sc with local_indices := map_insert name sc.next_local_idx sc.local_indices }
  let (r, sc) := alloc_string name sc
  { sc with local_name_refs := sc.local_name_refs ++ [r],
            next_local_idx := (sc.next_local_idx + 1) % 65536 }

/-- `get_local_index`: `assert(false)` when the name is unknown. -/
def get_local_index (name : bstr) (sc : gen_handler_scope) : gres Nat :=
  match map_find name sc.local_indices with
  | some i => .ok (i % 65536)
  | none => .afail "get_local_index: name not found"

/-- The `ast_the_id` enum value (the `u8` operand of `OP_THE`). -/
def ast_the_id.code : ast_the_id → Nat
  | .EXPR_THE_MOVIE_PATH => 0
  | .EXPR_THE_FRAME => 1
  | .EXPR_THE_DIR_SEPARATOR => 2
  | .EXPR_THE_MILLISECONDS => 3
  | .EXPR_THE_RANDOM_SEED => 4
  | .EXPR_THE_PLATFORM => 5

/-- Append one instruction (`scope.instrs.push_back`). -/
def emit (i : instr) (sc : gen_handler_scope) : gen_handler_scope :=
  { sc with instrs := sc.instrs ++ [i] }

mutual

/-- `generate_expr` (bcgen lines 234-556). The `EXPR_PROP_LIST`,
`EXPR_CALL`, `EXPR_DOT` and `EXPR_INDEX` arms are `assert(false)`. -/
def generate_expr (e : ast_expr) (ctx : gen_script_scope)
    (sc : gen_handler_scope) (assignment : Bool) : gres gen_handler_scope :=
  match e with
  | .literal l =>
    match l with
    | .lfloat q =>
      let (k, sc) := get_literal_float q sc
      .ok (emit (.OP_LOADC k) sc)
    | .lint i =>
      if i = 0 then .ok (emit .OP_LOADI0 sc)
      else if i = 1 then .ok (emit .OP_LOADI1 sc)
      else
        let (k, sc) := get_literal_int i sc
        .ok (emit (.OP_LOADC k) sc)
    | .lstring s =>
      let (k, sc) := get_literal_str s sc
      .ok (emit (.OP_LOADC k) sc)
    | .lsymbol s =>
      let (k, sc) := get_symbol s sc
      .ok (emit (.OP_LOADC k) sc)
    | .lvoid => .ok (emit .OP_LOADVOID sc)
  | .identifier name scope_kind =>
    match scope_kind with
    | .SCOPE_LOCAL => do
      let n ← get_local_index name sc
      if assignment then .ok (emit (.OP_STOREL n) sc)
      else .ok (emit (.OP_LOADL n) sc)
    | .SCOPE_GLOBAL =>
      let (k, sc) := get_symbol name sc
      if assignment then .ok (emit (.OP_STOREG k) sc)
      else .ok (emit (.OP_LOADG k) sc)
    | .SCOPE_PROPERTY =>
      let sc := emit .OP_LOADL0 sc
      let (k, sc) := get_symbol name sc
      if assignment then .ok (emit .OP_OIDXS (emit (.OP_LOADC k) sc))
      else .ok (emit .OP_OIDXG (emit (.OP_LOADC k) sc))
  | .the id => .ok (emit (.OP_THE id.code) sc)
  | .elist items =>
    let sc := emit (.OP_NEWLLIST (items.length % 65536)) sc
    let (add_str_idx, sc) := get_symbol (bytes "add") sc
    generate_list_items items add_str_idx ctx sc
  | .eprop_list _ => .afail "TODO: ast::EXPR_PROP_LIST"
  | .binop op l r => do
    let sc ← generate_expr l ctx sc false
    let sc ← generate_expr r ctx sc false
    match op with
    | .EXPR_BINOP_AND => .ok (emit .OP_AND sc)
    | .EXPR_BINOP_OR => .ok (emit .OP_OR sc)
    | .EXPR_BINOP_ADD => .ok (emit .OP_ADD sc)
    | .EXPR_BINOP_SUB => .ok (emit .OP_SUB sc)
    | .EXPR_BINOP_MUL => .ok (emit .OP_MUL sc)
    | .EXPR_BINOP_DIV => .ok (emit .OP_DIV sc)
    | .EXPR_BINOP_MOD => .ok (emit .OP_MOD sc)
    | .EXPR_BINOP_CONCAT => .ok (emit .OP_CONCAT sc)
    | .EXPR_BINOP_CONCAT_WITH_SPACE => .ok (emit .OP_CONCATSP sc)
    | .EXPR_BINOP_EQ => .ok (emit .OP_EQ sc)
    | .EXPR_BINOP_NEQ => .ok (emit .OP_NOT (emit .OP_EQ sc))
    | .EXPR_BINOP_GT => .ok (emit .OP_GT sc)
    | .EXPR_BINOP_LT => .ok (emit .OP_LT sc)
    | .EXPR_BINOP_GE => .ok (emit .OP_GTE sc)
    | .EXPR_BINOP_LE => .ok (emit .OP_LTE sc)
  | .unop op inner => do
    let sc ← generate_expr inner ctx sc false
    match op with
    | .EXPR_UNOP_NEG => .ok (emit .OP_UNM sc)
    | .EXPR_UNOP_NOT => .ok (emit .OP_NOT sc)
  | .call _ _ => .afail "EXPR_CALL not implemented"
  | .dot _ _ => .afail "EXPR_DOT not implemented"
  | .eindex _ _ _ => .afail "EXPR_INDEX not implemented"

/-- The element loop of a list literal: `DUP; <e>; OCALL add,1; POP`. -/
def generate_list_items (items : List ast_expr) (add_str_idx : Nat)
    (ctx : gen_script_scope) (sc : gen_handler_scope) : gres gen_handler_scope :=
  match items with
  | [] => .ok sc
  | e :: rest => do
    let sc := emit .OP_DUP sc
    let sc ← generate_expr e ctx sc false
    let sc := emit .OP_POP (emit (.OP_OCALL add_str_idx 1) sc)
    generate_list_items rest add_str_idx ctx sc

end

/-- `generate_statement` (bcgen lines 599-957). Everything except
expression statements, assignments, returns and `put` is
`assert(false)`. -/
def generate_statement (stm : ast_statement) (ctx : gen_script_scope)
    (sc : gen_handler_scope) : gres gen_handler_scope :=
  match stm with
  | .sexpr e => do
    let sc ← generate_expr e ctx sc false
    .ok (emit .OP_POP sc)
  | .sassign lvalue rvalue => do
    let sc ← generate_expr rvalue ctx sc false
    generate_expr lvalue ctx sc true
  | .sreturn e? => do
    let sc ←
      match e? with
      | some e => generate_expr e ctx sc false
      | none => .ok (emit .OP_LOADVOID sc)
    .ok (emit .OP_RET sc)
  | .sput e => do
    let sc ← generate_expr e ctx sc false
    .ok (emit .OP_PUT sc)
  | .sput_on _ _ _ => .afail "PUT_ON unimplemented"
  | .sexit_repeat => .afail "EXIT_REPEAT unimplemented"
  | .snext_repeat => .afail "NEXT_REPEAT unimplemented"
  | .sif _ _ _ => .afail "IF unimplemented"
  | .srepeat_while _ _ => .afail "REPEAT_WHILE unimplemented"
  | .srepeat_to _ _ _ _ _ => .afail "REPEAT_TO unimplemented"
  | .srepeat_in _ _ _ => .afail "REPEAT_IN unimplemented"
  | .scase _ _ _ _ => .afail "CASE unimplemented"

/-- The statement fold of `generate_chunk`. -/
def generate_statements (stms : List ast_statement) (ctx : gen_script_scope)
    (sc : gen_handler_scope) : gres gen_handler_scope :=
  match stms with
  | [] => .ok sc
  | stm :: rest => do
    let sc ← generate_statement stm ctx sc
    generate_statements rest ctx sc

/-- `generate_chunk` (bcgen lines 959-1046): bounds checks, parameter and
local registration (with the implicit `me` when no parameter is
declared), statement generation, the trailing `LOADVOID; RET`, and the
header fields. The binary serialization (offsets, alignment, memcpy) is
memory layout and is abstracted: the chunk carries the regions directly. -/
def generate_chunk (handler : ast_handler_decl) (ctx : gen_script_scope) :
    gres chunk := do
  if handler.params.length > 255 then .gerr "parameter count exceeded max of 255"
  else if handler.locals.length > 65535 then .gerr "local count exceeded max of 65535"
  else do
    let nargs := handler.params.length
    let sc := handler.params.foldl (fun sc p => register_local p sc) gen_handler_scope.empty
    let (nargs, sc) :=
      if handler.params.length = 0 then (nargs + 1, register_local (bytes "me (implicit)") sc)
      else (nargs, sc)
    let sc := handler.locals.foldl (fun sc l => register_local l sc) sc
    let sc ← generate_statements handler.body ctx sc
    let sc := emit .OP_RET (emit .OP_LOADVOID sc)
    if sc.instrs.length > 2 ^ 32 - 1 then .gerr "too many instructions"
    else if sc.chunk_consts.length > 65535 then .gerr "too many unique constants"
    else
      .ok { nargs := nargs, nlocals := handler.locals.length,
            instrs := sc.instrs, consts := sc.chunk_consts,
            string_pool := sc.string_pool, local_names := sc.local_name_refs }

/-- The handler fold of `generate_script`. -/
def generate_chunks (handlers : List ast_handler_decl) (ctx : gen_script_scope) :
    gres (List chunk) :=
  match handlers with
  | [] => .ok []
  | h :: rest => do
    let c ← generate_chunk h ctx
    let cs ← generate_chunks rest ctx
    .ok (c :: cs)

/-- `generate_script` then `bc::generate_bytecode`: all handler names are
collected into the script scope first, then each handler is compiled. -/
def generate_bytecode (root : ast_root) : gres (List chunk) :=
  let ctx : gen_script_scope := { handlers := root.handlers.map (fun h => h.name) }
  generate_chunks root.handlers ctx

/-- Outcome of the composed pipeline `lingo::compile_bytecode`. -/
inductive compres where
  | ok (chunks : List chunk) : compres
  | cerr (msg : String) : compres
  | afail (msg : String) : compres
  | crash (msg : String) : compres
  | nofuel : compres
deriving DecidableEq

/-- `lingo::compile_bytecode` (bcgen lines 1114-1181): tokenize, parse,
generate. Stage errors are reported (`cerr`); an `assert(false)` aborts
(`afail`); lexer undefined behaviour is `crash`; `nofuel` is the fuel
artifact. -/
def compile_bytecode (fuel : Nat) (input : bstr) : compres :=
  match parse_tokens fuel input with
  | .err m => .cerr m
  | .crash m => .crash m
  | .nofuel => .nofuel
  | .ok toks =>
    match parse_ast fuel toks with
    | .perr m => .cerr m
    | .nofuel => .nofuel
    | .ok root =>
      match generate_bytecode root with
      | .gerr m => .cerr m
      | .afail m => .afail m
      | .ok chunks => .ok chunks

/-! ## Observation helpers for the theorems -/

/-- The standard-output bytes of a completed run. -/
def runres.output : runres → Option (List Nat)
  | .ok st => some st.out
  | _ => none

/-- A stack slot of a completed run's final state. -/
def runres.slot : runres → Nat → Option value
  | .ok st, i => st.stack.get? i
  | _, _ => none

/-- The stack-top index after one dispatch step that continued. -/
def stepres.result_top : stepres → Option Nat
  | .cont st => some st.top
  | _ => none

/-- A stack slot after one dispatch step that continued. -/
def stepres.result_slot : stepres → Nat → Option value
  | .cont st, i => st.stack.get? i
  | _, _ => none

/-- The first chunk of a successful compilation. -/
def compres.first_chunk : compres → Option chunk
  | .ok (c :: _) => some c
  | _ => none

/-- A VM state whose operand stack holds the given values (bottom first) in
the 256 default-Void slots, with one frame whose `stack_base` is — as in
`run` — unassigned. Used to exercise single instructions. -/
def test_state (vals : List value) : vmstate :=
  { stack := vals ++ List.replicate (256 - vals.length) value.vvoid
    top := vals.length
    cstack := [{ ip := 0, stack_base := none }]
    ip := 0
    intern := []
    out := [] }

/-- A chunk holding just the given code (for single-instruction tests). -/
def test_chunk (code : List instr) : chunk :=
  { nargs := 1, nlocals := 0, instrs := code, consts := [], string_pool := [],
    local_names := [] }

/-! ## Claim theorems -/

set_option maxRecDepth 1000000
set_option maxHeartbeats 4000000

/-- The chunk CompileBytecode produces for spec scenario 1 (`put "hello"`). -/
def c9_chunk : chunk :=
  { nargs := 1, nlocals := 0,
    instrs := [.OP_LOADC 0, .OP_PUT, .OP_LOADVOID, .OP_RET],
    consts := [.cstr 1],
    string_pool := [bytes "me (implicit)", bytes "hello"],
    local_names := [0] }

/-- C9: for the source `on main / put "hello" / end`, the compiled chunk is
LOADC of constant 0 (the string "hello" — the pool also holds the implicit
me's name), then PUT, then LOADVOID, then RET, and running it writes the
bytes of "hello" followed by a newline to standard output. -/
theorem C9_echo_pipeline :
    compile_bytecode 400 (bytes "on main\n  put \"hello\"\nend\n") = .ok [c9_chunk]
  ∧ (vm_run c9_chunk 100).output = some (bytes "hello\n") := by
  constructor
  · decide
  · decide

/-- The chunk CompileBytecode produces for spec scenario 2
(`x = 3 + 4 * 2 / put x`). -/
def c1_chunk : chunk :=
  { nargs := 1, nlocals := 1,
    instrs := [.OP_LOADC 0, .OP_LOADC 1, .OP_LOADC 2, .OP_MUL, .OP_ADD,
               .OP_STOREL 1, .OP_LOADL 1, .OP_PUT, .OP_LOADVOID, .OP_RET],
    consts := [.cint 3, .cint 4, .cint 2],
    string_pool := [bytes "me (implicit)", bytes "x"],
    local_names := [0, 1] }

/-- C1: for the source `on main / x = 3 + 4 * 2 / put x / end`
CompileBytecode succeeds, with multiplication bound tighter than addition
(constants 3, 4, 2 are combined by MUL then ADD). Running the chunk in the
VM as written, however, crashes: the initial frame's `stack_base` is never
assigned, so OP_STOREL dereferences an indeterminate pointer (undefined
behaviour) instead of assigning x. With the one evident initialization
(`stack_base` = bottom of the operand stack) the run stores Int 11 in
local slot 1 (x) and prints the line `11`, as the spec intends. -/
theorem C1_arith_pipeline :
    compile_bytecode 400 (bytes "on main\n  x = 3 + 4 * 2\n  put x\nend\n") = .ok [c1_chunk]
  ∧ vm_run c1_chunk 100 = .crash "uninitialized stack_base"
  ∧ (vm_run_patched c1_chunk 100).output = some (bytes "11\n")
  ∧ (vm_run_patched c1_chunk 100).slot 1 = some (.vint 11) := by
  refine ⟨?_, ?_, ?_, ?_⟩ <;> decide

/-- C5: for the spec's scenario-3 conditional source, the pipeline does not
compile to bytecode at all: `generate_statement` hits
`assert(false && "IF unimplemented")` on the if statement, so no BRF is
emitted and nothing runs or prints. -/
theorem C5_if_pipeline_asserts :
    compile_bytecode 400
      (bytes "on main\n  if 1 then\n    put \"y\"\n  else\n    put \"n\"\n  end if\nend\n") =
      .afail "IF unimplemented" := by
  decide

/-- C4: the DIV instruction on two Int operands has no divisor guard: a
zero divisor executes C++ `a->i32 / b->i32`, which is undefined
behaviour (a crash), not a raised runtime error; a nonzero in-range
division truncates toward zero. -/
theorem C4_div_by_zero_crashes :
    vm_step (test_chunk [.OP_DIV]) (test_state [.vint 1, .vint 0]) =
      .crash "integer division by zero"
  ∧ op_div_core (.vint 1) (.vint 0) = .crash "integer division by zero"
  ∧ op_div_core (.vint 7) (.vint 2) = .val (.vint 3)
  ∧ op_div_core (.vint (-7)) (.vint 2) = .val (.vint (-3))
  ∧ op_div_core (.vint 7) (.vint (-2)) = .val (.vint (-3))
  ∧ op_div_core (.vint (-7)) (.vint (-2)) = .val (.vint 3) := by
  refine ⟨?_, ?_, ?_, ?_, ?_, ?_⟩ <;> decide

/-- C10: the generator's dispatch reaches `assert(false)` — neither normal
code emission nor a reported GenError — for every if statement, repeat
form, case, exit repeat, next repeat, put-after/before, and for every
call, dot, index and property-list expression. -/
theorem C10_generator_asserts (ctx : gen_script_scope) (sc : gen_handler_scope) :
    (∀ branches has_else else_branch,
      generate_statement (.sif branches has_else else_branch) ctx sc =
        .afail "IF unimplemented")
  ∧ (∀ cond body, generate_statement (.srepeat_while cond body) ctx sc =
      .afail "REPEAT_WHILE unimplemented")
  ∧ (∀ iter init stop down body,
      generate_statement (.srepeat_to iter init stop down body) ctx sc =
        .afail "REPEAT_TO unimplemented")
  ∧ (∀ iter iterable body, generate_statement (.srepeat_in iter iterable body) ctx sc =
      .afail "REPEAT_IN unimplemented")
  ∧ (∀ e clauses has_otherwise otherwise,
      generate_statement (.scase e clauses has_otherwise otherwise) ctx sc =
        .afail "CASE unimplemented")
  ∧ generate_statement .sexit_repeat ctx sc = .afail "EXIT_REPEAT unimplemented"
  ∧ generate_statement .snext_repeat ctx sc = .afail "NEXT_REPEAT unimplemented"
  ∧ (∀ e target before, generate_statement (.sput_on e target before) ctx sc =
      .afail "PUT_ON unimplemented")
  ∧ (∀ assignment method args, generate_expr (.call method args) ctx sc assignment =
      .afail "EXPR_CALL not implemented")
  ∧ (∀ assignment e index, generate_expr (.dot e index) ctx sc assignment =
      .afail "EXPR_DOT not implemented")
  ∧ (∀ assignment e index_from index_to,
      generate_expr (.eindex e index_from index_to) ctx sc assignment =
        .afail "EXPR_INDEX not implemented")
  ∧ (∀ assignment pairs, generate_expr (.eprop_list pairs) ctx sc assignment =
      .afail "TODO: ast::EXPR_PROP_LIST") := by
  refine ⟨?_, ?_, ?_, ?_, ?_, ?_, ?_, ?_, ?_, ?_, ?_, ?_⟩ <;> intros <;> rfl

/-- C3 counterexample: executing BRF on a stack whose top is Int 0 leaves
the tested value on the stack — the stack top is still 1 (the Int 0 sits
at slot 0), not 0 as the claimed pop would give. -/
theorem C3_counterexample_no_pop :
    (vm_step (test_chunk [.OP_BRF 5]) (test_state [.vint 0])).result_top = some 1
  ∧ (vm_step (test_chunk [.OP_BRF 5]) (test_state [.vint 0])).result_slot 0 =
      some (.vint 0)
  ∧ (vm_step (test_chunk [.OP_BRF 5]) (test_state [.vint 0])).result_top ≠ some 0 := by
  refine ⟨?_, ?_, ?_⟩ <;> decide

/-- C3 (amended): BRT and BRF read the tested value without removing it
(stack contents and top are unchanged; only `ip` moves). BRT branches iff
the value is an Int different from 0; BRF branches iff it is Int 0 or
Void; any other operand type is the runtime error `expected integer`.
The branch target is `ip + off` for the instruction's offset `off`; the
fall-through is `ip + 1`. -/
theorem C3_brt_brf_semantics (v : value) (off : Int) :
    vm_step (test_chunk [.OP_BRF off]) (test_state [v]) =
      (match v with
       | .vint i => .cont { test_state [v] with ip := if i = 0 then off else 1 }
       | .vvoid => .cont { test_state [v] with ip := off }
       | _ => .rterr "error: expected integer" { test_state [v] with ip := 1 })
  ∧ vm_step (test_chunk [.OP_BRT off]) (test_state [v]) =
      (match v with
       | .vint i => .cont { test_state [v] with ip := if i ≠ 0 then off else 1 }
       | .vvoid => .cont { test_state [v] with ip := 1 }
       | _ => .rterr "error: expected integer" { test_state [v] with ip := 1 }) := by
  constructor
  · cases v <;> simp [vm_step, test_chunk, test_state, stk_read] <;>
      (try (split_ifs <;> rfl))
  · cases v <;> simp [vm_step, test_chunk, test_state, stk_read] <;>
      (try (split_ifs <;> rfl))

/-- C2 counterexample: executing EQ on two equal Float operands pushes
Int 0, not Int 1 — the comparison chain has no Float/Float case, so `res`
keeps its initial `false`. -/
theorem C2_counterexample_float_not_reflexive :
    (vm_step (test_chunk [.OP_EQ]) (test_state [.vfloat (1 / 2), .vfloat (1 / 2)])).result_slot 0 =
      some (.vint 0)
  ∧ (vm_step (test_chunk [.OP_EQ]) (test_state [.vfloat (1 / 2), .vfloat (1 / 2)])).result_top =
      some 1
  ∧ op_eq_core (.vfloat (1 / 2)) (.vfloat (1 / 2)) = .val false := by
  refine ⟨?_, ?_, ?_⟩ <;> decide

/-- C2 (amended): EQ is symmetric — both operand orders give the same
outcome (the dispatch swaps the operands into tag order first), and the
EQ instruction pushes Int 1 or Int 0 per `op_eq_core` (or dies when a
numeric parse of a string operand throws). EQ(x,x) pushes Int 1 when x is
Void, an Int, a String or a Symbol; it pushes Int 0 when x is a Float or
a list / property-list / point / quad reference. -/
theorem C2_eq_symmetric_partially_reflexive :
    (∀ x y : value, op_eq_core x y = op_eq_core y x)
  ∧ (∀ x y : value,
      vm_step (test_chunk [.OP_EQ]) (test_state [x, y]) =
        (match op_eq_core x y with
         | .val r =>
           .cont { test_state [x, y] with
                   ip := 1, top := 1,
                   stack := (test_state [x, y]).stack.set 0 (.vint (if r then 1 else 0)) }
         | .crash m => .crash m))
  ∧ op_eq_core .vvoid .vvoid = .val true
  ∧ (∀ i : Int, op_eq_core (.vint i) (.vint i) = .val true)
  ∧ (∀ s : bstr, op_eq_core (.vstr s) (.vstr s) = .val true)
  ∧ (∀ r s, op_eq_core (.vsym r s) (.vsym r s) = .val true)
  ∧ (∀ q : Rat, op_eq_core (.vfloat q) (.vfloat q) = .val false)
  ∧ (∀ r : Nat,
      op_eq_core (.vllist r) (.vllist r) = .val false
    ∧ op_eq_core (.vplist r) (.vplist r) = .val false
    ∧ op_eq_core (.vpoint r) (.vpoint r) = .val false
    ∧ op_eq_core (.vquad r) (.vquad r) = .val false) := by
  refine ⟨?_, ?_, by decide, ?_, ?_, ?_, ?_, ?_⟩
  · intro x y
    cases x <;> cases y <;> simp [op_eq_core, eq_chain, value.tag, eq_comm]
  · intro x y
    rcases h : op_eq_core x y with r | m <;>
      simp [vm_step, test_chunk, test_state, stk_read, stk_write, h]
  · intro i; simp [op_eq_core, eq_chain, value.tag]
  · intro s; simp [op_eq_core, eq_chain, value.tag]
  · intro r s; simp [op_eq_core, eq_chain, value.tag]
  · intro q; simp [op_eq_core, eq_chain, value.tag]
  · intro r
    refine ⟨?_, ?_, ?_, ?_⟩ <;> simp [op_eq_core, eq_chain, value.tag]

/-- The claim's resolution order, written from its words: script property
first regardless of anything else, then handler local, then parameter,
then handler-declared global, then script-level global, else failure. -/
def resolve_order_spec (s : handler_scope) (name : bstr) : Option ast_scope :=
  if set_mem name s.parent.properties then some .SCOPE_PROPERTY
  else if set_mem name s.locals then some .SCOPE_LOCAL
  else if set_mem name s.params then some .SCOPE_LOCAL
  else if set_mem name s.globals then some .SCOPE_GLOBAL
  else if set_mem name s.parent.globals then some .SCOPE_GLOBAL
  else none

/-- C7: the parser's `handler_scope::has_var` resolves every name exactly
in the claimed order: Property (regardless of other declarations), then
local, then parameter, then handler global, then script global, else the
lookup fails. -/
theorem C7_resolution_order (s : handler_scope) (name : bstr) :
    s.has_var name = resolve_order_spec s name := by
  unfold handler_scope.has_var script_scope.has_var resolve_order_spec
  by_cases h1 : set_mem name s.parent.properties <;>
  by_cases h2 : set_mem name s.parent.globals <;>
  by_cases h3 : set_mem name s.locals <;>
  by_cases h4 : set_mem name s.params <;>
  by_cases h5 : set_mem name s.globals <;>
  simp [h1, h2, h3, h4, h5]

/-! ## Pool-extension and local-registration lemmas (claim C6) -/

/-- How code generation may change the string pool and the local-name
references: statements only append pool records and never touch the
local-name reference list. -/
def pool_ext (sc sc2 : gen_handler_scope) : Prop :=
  (∃ ext, sc2.string_pool = sc.string_pool ++ ext) ∧
  sc2.local_name_refs = sc.local_name_refs

theorem pool_ext_refl (sc : gen_handler_scope) : pool_ext sc sc := ⟨⟨[], by simp⟩, rfl⟩

theorem pool_ext_trans {a b c : gen_handler_scope} (h1 : pool_ext a b) (h2 : pool_ext b c) :
    pool_ext a c := by
  obtain ⟨⟨e1, he1⟩, hr1⟩ := h1
  obtain ⟨⟨e2, he2⟩, hr2⟩ := h2
  exact ⟨⟨e1 ++ e2, by simp [he2, he1]⟩, hr2.trans hr1⟩

theorem emit_ext (i : instr) (sc : gen_handler_scope) : pool_ext sc (emit i sc) :=
  ⟨⟨[], by simp [emit]⟩, rfl⟩

theorem pool_ext_emit {a b : gen_handler_scope} (i : instr) (h : pool_ext a b) :
    pool_ext a (emit i b) := pool_ext_trans h (emit_ext i b)

/-- `_get_strbased_const` only appends to the pool. -/
theorem get_strbased_const_ext (isSym : Bool) (v : bstr) (sc : gen_handler_scope)
    {k : Nat} {sc2 : gen_handler_scope} (h : get_strbased_const isSym v sc = (k, sc2)) :
    pool_ext sc sc2 := by
  unfold get_strbased_const at h
  rcases hf : sc.chunk_consts.findIdx? (const_matches_str sc.string_pool isSym v) with _ | i <;>
    simp [hf] at h
  · obtain ⟨-, h2⟩ := h
    exact ⟨⟨[v], by simp [← h2, alloc_string]⟩, by simp [← h2, alloc_string]⟩
  · exact h.2 ▸ pool_ext_refl sc

theorem get_literal_int_ext (v : Int) (sc : gen_handler_scope)
    {k : Nat} {sc2 : gen_handler_scope} (h : get_literal_int v sc = (k, sc2)) :
    pool_ext sc sc2 := by
  unfold get_literal_int at h
  rcases hf : sc.chunk_consts.findIdx? (fun c => c = .cint v) with _ | i <;>
    simp [hf] at h
  · exact ⟨⟨[], by simp [← h.2]⟩, by simp [← h.2]⟩
  · exact h.2 ▸ pool_ext_refl sc

theorem get_literal_float_ext (v : Rat) (sc : gen_handler_scope)
    {k : Nat} {sc2 : gen_handler_scope} (h : get_literal_float v sc = (k, sc2)) :
    pool_ext sc sc2 := by
  unfold get_literal_float at h
  rcases hf : sc.chunk_consts.findIdx? (fun c => c = .cfloat v) with _ | i <;>
    simp [hf] at h
  · exact ⟨⟨[], by simp [← h.2]⟩, by simp [← h.2]⟩
  · exact h.2 ▸ pool_ext_refl sc

theorem get_literal_str_ext (v : bstr) (sc : gen_handler_scope)
    {k : Nat} {sc2 : gen_handler_scope} (h : get_literal_str v sc = (k, sc2)) :
    pool_ext sc sc2 := get_strbased_const_ext false v sc h

theorem get_symbol_ext (v : bstr) (sc : gen_handler_scope)
    {k : Nat} {sc2 : gen_handler_scope} (h : get_symbol v sc = (k, sc2)) :
    pool_ext sc sc2 := get_strbased_const_ext true v sc h

/-- Inversion of a successful generator bind. -/
theorem gres_bind_ok {α β : Type} {r : gres α} {f : α → gres β} {b : β}
    (h : r >>= f = .ok b) : ∃ a, r = .ok a ∧ f a = .ok b := by
  cases r with
  | ok a => exact ⟨a, rfl, h⟩
  | gerr m => exact gres.noConfusion h
  | afail m => exact gres.noConfusion h

/-- Expression generation only appends to the string pool and leaves the
local-name references unchanged. -/
theorem gen_expr_pool_ext (e : ast_expr) (ctx : gen_script_scope)
    (sc : gen_handler_scope) (assignment : Bool) :
    ∀ sc2, generate_expr e ctx sc assignment = .ok sc2 → pool_ext sc sc2 := by
  apply generate_expr.induct
    (fun e ctx sc assignment =>
      ∀ sc2, generate_expr e ctx sc assignment = .ok sc2 → pool_ext sc sc2)
    (fun items a ctx sc =>
      ∀ sc2, generate_list_items items a ctx sc = .ok sc2 → pool_ext sc sc2)
  all_goals intros
  case case1 =>
    rename_i q p sc3 hx sc2 h
    rw [generate_expr] at h
    simp only [hx] at h
    cases h
    exact pool_ext_emit _ (get_literal_float_ext _ _ hx)
  case case2 =>
    rename_i sc2 h
    rw [generate_expr] at h
    cases h
    exact emit_ext _ _
  case case3 =>
    rename_i sc2 h
    rw [generate_expr] at h
    cases h
    exact emit_ext _ _
  case case4 =>
    rename_i i hne0 hne1 p sc3 hx sc2 h
    rw [generate_expr] at h
    simp only [hx] at h
    split at h
    · cases h; exact emit_ext _ _
    · cases h; exact pool_ext_emit _ (get_literal_int_ext _ _ hx)
  case case5 =>
    rename_i s p sc3 hx sc2 h
    rw [generate_expr] at h
    simp only [hx] at h
    cases h
    exact pool_ext_emit _ (get_literal_str_ext _ _ hx)
  case case6 =>
    rename_i s p sc3 hx sc2 h
    rw [generate_expr] at h
    simp only [hx] at h
    cases h
    exact pool_ext_emit _ (get_symbol_ext _ _ hx)
  case case7 =>
    rename_i sc2 h
    rw [generate_expr] at h
    cases h
    exact emit_ext _ _
  case case8 =>
    rename_i sc1 asg name sc2 h
    rw [generate_expr] at h
    obtain ⟨n, hn, h⟩ := gres_bind_ok h
    split at h <;> (cases h; exact emit_ext _ _)
  case case9 =>
    rename_i name p sc3 hx sc2 h
    rw [generate_expr] at h
    simp only [hx] at h
    split at h <;> cases h <;> exact pool_ext_emit _ (get_symbol_ext _ _ hx)
  case case10 =>
    rename_i name p sc3 hx hasg sc2 h
    rw [generate_expr] at h
    simp only [hx] at h
    split at h <;> cases h <;> exact pool_ext_emit _ (get_symbol_ext _ _ hx)
  case case11 =>
    rename_i sc1 name scP p sc3 hx sc2 h
    have hx2 : get_symbol name (emit instr.OP_LOADL0 sc1) = (p, sc3) := hx
    rw [generate_expr] at h
    simp only [hx2] at h
    split at h <;> cases h <;>
      exact pool_ext_emit _ (pool_ext_emit _
        (pool_ext_trans (emit_ext _ _) (get_symbol_ext _ _ hx2)))
  case case12 =>
    rename_i sc1 asg name scP p sc3 hx hasg sc2 h
    have hx2 : get_symbol name (emit instr.OP_LOADL0 sc1) = (p, sc3) := hx
    rw [generate_expr] at h
    simp only [hx2] at h
    split at h <;> cases h <;>
      exact pool_ext_emit _ (pool_ext_emit _
        (pool_ext_trans (emit_ext _ _) (get_symbol_ext _ _ hx2)))
  case case13 =>
    rename_i sc2 h
    rw [generate_expr] at h
    cases h
    exact emit_ext _ _
  case case14 =>
    rename_i sc1 asg items scNL p sc3 hx ih sc2 h
    have hx2 : get_symbol (bytes "add")
        (emit (instr.OP_NEWLLIST (items.length % 65536)) sc1) = (p, sc3) := hx
    rw [generate_expr] at h
    simp only [hx2] at h
    exact pool_ext_trans
      (pool_ext_trans (emit_ext _ _) (get_symbol_ext _ _ hx2)) (ih sc2 h)
  case case15 =>
    rename_i sc2 h
    rw [generate_expr] at h
    exact gres.noConfusion h
  case case16 =>
    rename_i op l r ihl ihr sc2 h
    rw [generate_expr] at h
    obtain ⟨sca, hl, h⟩ := gres_bind_ok h
    obtain ⟨scb, hr, h⟩ := gres_bind_ok h
    have e1 := ihl sca hl
    have e2 := ihr sca scb hr
    cases op <;> cases h <;>
      first
        | exact pool_ext_trans e1 (pool_ext_emit _ e2)
        | exact pool_ext_trans e1 (pool_ext_emit _ (pool_ext_emit _ e2))
  case case17 =>
    rename_i op inner ih sc2 h
    rw [generate_expr] at h
    obtain ⟨sca, hi, h⟩ := gres_bind_ok h
    cases op <;> cases h <;> exact pool_ext_emit _ (ih sca hi)
  case case18 =>
    rename_i sc2 h
    rw [generate_expr] at h
    exact gres.noConfusion h
  case case19 =>
    rename_i sc2 h
    rw [generate_expr] at h
    exact gres.noConfusion h
  case case20 =>
    rename_i sc2 h
    rw [generate_expr] at h
    exact gres.noConfusion h
  case case21 =>
    rename_i sc2 h
    rw [generate_list_items] at h
    cases h
    exact pool_ext_refl _
  case case22 =>
    rename_i a_idx ctx1 sc1 e rest scD ihe ihr sc2 h
    rw [generate_list_items] at h
    obtain ⟨sca, he, h⟩ := gres_bind_ok h
    have e1 := ihe sca he
    have e2 := ihr sca sc2 h
    exact pool_ext_trans (pool_ext_trans (emit_ext _ _) e1)
      (pool_ext_trans (pool_ext_emit _ (emit_ext _ _)) e2)

/-- Statement generation only appends to the string pool and leaves the
local-name references unchanged. -/
theorem gen_stm_pool_ext (stm : ast_statement) (ctx : gen_script_scope)
    (sc : gen_handler_scope) (sc2 : gen_handler_scope)
    (h : generate_statement stm ctx sc = .ok sc2) : pool_ext sc sc2 := by
  cases stm with
  | sexpr e =>
    rw [generate_statement.eq_def] at h
    simp only [] at h
    obtain ⟨sca, he, h⟩ := gres_bind_ok h
    cases h
    exact pool_ext_emit _ (gen_expr_pool_ext e ctx sc false sca he)
  | sassign lv rv =>
    rw [generate_statement.eq_def] at h
    simp only [] at h
    obtain ⟨sca, he, h⟩ := gres_bind_ok h
    exact pool_ext_trans (gen_expr_pool_ext rv ctx sc false sca he)
      (gen_expr_pool_ext lv ctx sca true sc2 h)
  | sreturn e? =>
    rw [generate_statement.eq_def] at h
    simp only [] at h
    cases e? with
    | some e =>
      obtain ⟨sca, he, h⟩ := gres_bind_ok h
      cases h
      exact pool_ext_emit _ (gen_expr_pool_ext e ctx sc false sca he)
    | none =>
      cases h
      exact pool_ext_emit _ (emit_ext _ _)
  | sput e =>
    rw [generate_statement.eq_def] at h
    simp only [] at h
    obtain ⟨sca, he, h⟩ := gres_bind_ok h
    cases h
    exact pool_ext_emit _ (gen_expr_pool_ext e ctx sc false sca he)
  | sput_on a b c => exact gres.noConfusion h
  | sexit_repeat => exact gres.noConfusion h
  | snext_repeat => exact gres.noConfusion h
  | sif a b c => exact gres.noConfusion h
  | srepeat_while a b => exact gres.noConfusion h
  | srepeat_to a b c d e => exact gres.noConfusion h
  | srepeat_in a b c => exact gres.noConfusion h
  | scase a b c d => exact gres.noConfusion h

theorem gen_stms_pool_ext (stms : List ast_statement) (ctx : gen_script_scope) :
    ∀ sc sc2, generate_statements stms ctx sc = .ok sc2 → pool_ext sc sc2 := by
  induction stms with
  | nil =>
    intro sc sc2 h
    rw [generate_statements] at h
    cases h
    exact pool_ext_refl _
  | cons stm rest ih =>
    intro sc sc2 h
    rw [generate_statements] at h
    obtain ⟨sca, hs, h⟩ := gres_bind_ok h
    exact pool_ext_trans (gen_stm_pool_ext stm ctx sc sca hs) (ih sca sc2 h)

/-- During the registration phase the local-name references are exactly
`0, 1, ...` into the pool: each `register_local` appends the record it
just allocated. -/
def reg_inv (sc : gen_handler_scope) : Prop :=
  sc.local_name_refs = List.range sc.string_pool.length

theorem register_local_inv (n : bstr) (sc : gen_handler_scope) (h : reg_inv sc) :
    reg_inv (register_local n sc) := by
  unfold reg_inv at *
  simp [register_local, alloc_string, List.range_succ, h]

theorem register_local_pool (n : bstr) (sc : gen_handler_scope) :
    (register_local n sc).string_pool = sc.string_pool ++ [n] := by
  simp [register_local, alloc_string]

theorem reg_fold_inv (names : List bstr) :
    ∀ sc, reg_inv sc → reg_inv (names.foldl (fun sc p => register_local p sc) sc) := by
  induction names with
  | nil => intro sc h; exact h
  | cons n rest ih => intro sc h; exact ih _ (register_local_inv n sc h)

theorem reg_fold_pool (names : List bstr) :
    ∀ sc, (names.foldl (fun sc p => register_local p sc) sc).string_pool
      = sc.string_pool ++ names := by
  induction names with
  | nil => intro sc; simp
  | cons n rest ih =>
    intro sc
    rw [List.foldl_cons, ih, register_local_pool]
    simp

/-- Reading back the first `l.length` pool records of `l ++ ext` yields `l`. -/
theorem range_map_getD (l ext : List bstr) :
    (List.range l.length).map (fun i => (l ++ ext).getD i []) = l := by
  apply List.ext_getElem
  · simp
  · intro i h1 h2
    simp only [List.getElem_map, List.getElem_range]
    rw [List.getD_eq_getElem?_getD, List.getElem?_append_left h2,
        List.getElem?_eq_getElem h2]
    rfl

/-- C6 (amended): in every chunk `generate_chunk` produces, the local-name
table is the declared parameters in declaration order — or the implicit
`me (implicit)` name when no parameter is declared, in which case `nargs`
is 1 — followed by the non-parameter locals in the order of the
`locals` list of the handler (which the parser supplies in `std::set` order,
i.e. ascending name order, not first-seen order — see the
counterexample), and `nlocals` is the local count. -/
theorem C6_local_table_layout (handler : ast_handler_decl) (ctx : gen_script_scope) (c : chunk)
    (h : generate_chunk handler ctx = .ok c) :
    c.local_name_strs =
      (if handler.params = [] then [bytes "me (implicit)"] else handler.params)
        ++ handler.locals ∧
    c.nargs = (if handler.params = [] then 1 else handler.params.length) ∧
    c.nlocals = handler.locals.length := by
  rw [generate_chunk.eq_def] at h
  split at h
  · exact gres.noConfusion h
  split at h
  · exact gres.noConfusion h
  split at h
  case _ hp =>
    obtain ⟨scS, hs, h⟩ := gres_bind_ok h
    have hp' : handler.params = [] := List.length_eq_zero.mp hp
    rw [hp'] at hs
    simp only [List.foldl_nil] at hs
    obtain ⟨⟨ext, hpool⟩, hrefs⟩ := gen_stms_pool_ext handler.body ctx _ scS hs
    have h0pool : (List.foldl (fun sc l => register_local l sc)
        (register_local (bytes "me (implicit)") gen_handler_scope.empty)
        handler.locals).string_pool = bytes "me (implicit)" :: handler.locals := by
      rw [reg_fold_pool, register_local_pool]
      rfl
    have h0inv : reg_inv (List.foldl (fun sc l => register_local l sc)
        (register_local (bytes "me (implicit)") gen_handler_scope.empty)
        handler.locals) :=
      reg_fold_inv _ _ (register_local_inv _ _ (by rfl))
    unfold reg_inv at h0inv
    simp only [] at h
    split at h
    · exact gres.noConfusion h
    split at h
    · exact gres.noConfusion h
    cases h
    refine ⟨?_, by simp [hp'], rfl⟩
    unfold chunk.local_name_strs
    simp only [emit, hp', if_pos]
    rw [hrefs, h0inv, h0pool, hpool, h0pool]
    exact range_map_getD (bytes "me (implicit)" :: handler.locals) ext
  case _ hp =>
    obtain ⟨scS, hs, h⟩ := gres_bind_ok h
    have hp' : handler.params ≠ [] := fun he => hp (by simp [he])
    obtain ⟨⟨ext, hpool⟩, hrefs⟩ := gen_stms_pool_ext handler.body ctx _ scS hs
    have h0pool : (List.foldl (fun sc l => register_local l sc)
        (List.foldl (fun sc p => register_local p sc) gen_handler_scope.empty
          handler.params)
        handler.locals).string_pool = handler.params ++ handler.locals := by
      rw [reg_fold_pool, reg_fold_pool]
      rfl
    have h0inv : reg_inv (List.foldl (fun sc l => register_local l sc)
        (List.foldl (fun sc p => register_local p sc) gen_handler_scope.empty
          handler.params)
        handler.locals) :=
      reg_fold_inv _ _ (reg_fold_inv _ _ (by rfl))
    unfold reg_inv at h0inv
    simp only [] at h
    split at h
    · exact gres.noConfusion h
    split at h
    · exact gres.noConfusion h
    cases h
    refine ⟨?_, by simp [hp'], rfl⟩
    unfold chunk.local_name_strs
    simp only [emit, hp', if_neg]
    rw [hrefs, h0inv, h0pool, hpool, h0pool]
    have := range_map_getD (handler.params ++ handler.locals) ext
    simpa using this

/-- Concrete handler for the C6 witness: `on main` with no parameters and
one local `a`. -/
def c6w_handler : ast_handler_decl :=
  { name := bytes "main", params := [], body := [], locals := [bytes "a"] }

def c6w_ctx : gen_script_scope := { handlers := [bytes "main"] }

def c6w_chunk : chunk :=
  { nargs := 1, nlocals := 1,
    instrs := [.OP_LOADVOID, .OP_RET],
    consts := [],
    string_pool := [bytes "me (implicit)", bytes "a"],
    local_names := [0, 1] }

/-- C6 witness: the layout theorem applied to the concrete handler
`c6w_handler`, whose chunk is computed outright. -/
theorem C6_local_table_layout_witness :
    generate_chunk c6w_handler c6w_ctx = .ok c6w_chunk ∧
    (c6w_chunk.local_name_strs =
        (if c6w_handler.params = [] then [bytes "me (implicit)"]
         else c6w_handler.params) ++ c6w_handler.locals ∧
     c6w_chunk.nargs =
        (if c6w_handler.params = [] then 1 else c6w_handler.params.length) ∧
     c6w_chunk.nlocals = c6w_handler.locals.length) :=
  ⟨by decide, C6_local_table_layout c6w_handler c6w_ctx c6w_chunk (by decide)⟩

/-- C6 counterexample: a handler body that introduces `b` before `a`
compiles to a local-name table `[me (implicit), a, b]` — ascending name
order — not the first-seen order `[me (implicit), b, a]` the claim
prescribes. -/
theorem C6_counterexample_sorted_not_first_seen :
    (compile_bytecode 400 (bytes "on main\n  b = 1\n  a = 2\nend\n")).first_chunk.map
        chunk.local_name_strs =
      some [bytes "me (implicit)", bytes "a", bytes "b"]
  ∧ ([bytes "me (implicit)", bytes "a", bytes "b"] : List bstr) ≠
      [bytes "me (implicit)", bytes "b", bytes "a"] := by
  constructor
  · decide
  · decide

/-! ## Lexer line-end discipline (claim C8) -/

/-- Two adjacent tokens are not both line ends. -/
def le_sep (a b : token) : Prop := ¬(a = token.line_end ∧ b = token.line_end)

/-- The line-end discipline of a token list, as one chain: prepending a
`line_end` sentinel also forces the head to not be a line end. -/
def le_good (toks : List token) : Prop :=
  List.Chain' le_sep (token.line_end :: toks)

theorem le_good_nil : le_good [] := by simp [le_good]

theorem le_good_dropLast (toks : List token) (h : le_good toks) :
    le_good toks.dropLast := by
  unfold le_good at *
  have hp : (token.line_end :: toks).dropLast <+: (token.line_end :: toks) :=
    List.dropLast_prefix _
  cases toks with
  | nil => simp
  | cons t rest =>
    have := h.prefix hp
    simpa using this

theorem le_good_push (toks : List token) (t : token) (ht : t ≠ .line_end)
    (h : le_good toks) : le_good (toks ++ [t]) := by
  unfold le_good at *
  rw [show token.line_end :: (toks ++ [t]) = (token.line_end :: toks) ++ [t] by simp,
      List.chain'_append]
  refine ⟨h, by simp, ?_⟩
  intro x hx y hy
  simp at hy
  subst hy
  simp [le_sep, ht]

theorem le_good_push_le (toks : List token) (hn : toks ≠ [])
    (hg : toks.getLast? ≠ some .line_end) (h : le_good toks) :
    le_good (toks ++ [.line_end]) := by
  unfold le_good at *
  rw [show token.line_end :: (toks ++ [.line_end]) = (token.line_end :: toks) ++ [.line_end] by simp,
      List.chain'_append]
  refine ⟨h, by simp, ?_⟩
  intro x hx y hy
  simp at hy
  subst hy
  cases toks with
  | nil => exact absurd rfl hn
  | cons t rest =>
    rw [List.getLast?_cons_cons] at hx
    simp only [Option.mem_def] at hx
    intro hc
    apply hg
    rw [← hc.1]
    exact hx

theorem make_word_ne_line_end (s : bstr) : make_word s ≠ token.line_end := by
  unfold make_word
  split <;> simp

/-- Every continuing lexer step preserves the line-end discipline of the
token list: tokens are appended one at a time, a `line_end` only behind
the guard of lexer line 311, and the line-continuation case only drops
the last token. -/
theorem lex_step_le_good (st st2 : lex_state) (h : le_good st.tokens)
    (hs : lex_step st = .cont st2) : le_good st2.tokens := by
  cases hmode : st.mode with
  | MODE_NONE =>
    by_cases h1 : is_space st.stream.ch = true
    · by_cases h2 : st.stream.ch = 10
      · by_cases h3 : check_line_cont st = true
        · simp [lex_step, hmode, is_space, is_alpha, is_digit, h2, h3] at hs
          subst hs
          exact le_good_dropLast _ h
        · by_cases h4 : st.tokens.length > 0 ∧ st.tokens.getLast? ≠ some token.line_end
          · simp [lex_step, hmode, is_space, is_alpha, is_digit, h2, h3, h4] at hs
            subst hs
            exact le_good_push_le _
              (by intro he; rw [he] at h4; exact absurd h4.1 (by simp)) h4.2 h
          · simp [lex_step, hmode, is_space, is_alpha, is_digit, h2, h3, h4] at hs
            subst hs
            exact h
      · simp [lex_step, hmode, h1, h2] at hs
        subst hs
        exact h
    · by_cases h5 : st.stream.ch = 34
      · simp [lex_step, hmode, is_space, is_alpha, is_digit, h1, h5] at hs
        subst hs
        exact h
      · by_cases h6 : is_alpha st.stream.ch = true ∨ st.stream.ch = 95
        · simp [lex_step, hmode, h1, h5, h6] at hs
          subst hs
          exact h
        · by_cases h7 : is_digit st.stream.ch = true
          · simp [lex_step, hmode, h1, h5, h6, h7] at hs
            subst hs
            exact h
          · simp [lex_step, hmode, h1, h5, h6, h7] at hs
            subst hs
            exact h
  | MODE_NUMBER =>
    by_cases h1 : ¬(is_alnum st.stream.ch = true) ∧ st.stream.ch ≠ 46
    · rcases hb : buf_append st.wordbuf 0 with _ | buf
      · simp [lex_step, hmode, h1, hb] at hs
      · by_cases hf : st.num_is_float = true
        · by_cases hr : (strtod_model st.wordbuf).1 = st.wordbuf.length
          · simp [lex_step, hmode, h1, hb, hf, hr] at hs
            subst hs
            exact le_good_push _ _ (by simp) h
          · simp [lex_step, hmode, h1, hb, hf, hr] at hs
        · by_cases hr : (strtol10 st.wordbuf).1 = st.wordbuf.length
          · simp [lex_step, hmode, h1, hb, hf, hr] at hs
            subst hs
            exact le_good_push _ _ (by simp) h
          · simp [lex_step, hmode, h1, hb, hf, hr] at hs
    · by_cases h46 : st.stream.ch = 46
      · rcases hb : buf_append st.wordbuf 46 with _ | buf
        · simp [lex_step, hmode, is_alnum, is_alpha, is_digit, h1, h46, hb] at hs
        · simp [lex_step, hmode, is_alnum, is_alpha, is_digit, h1, h46, hb] at hs
          subst hs
          exact h
      · have halnum : is_alnum st.stream.ch = true := by
          by_contra hc
          exact h1 ⟨by simpa using hc, h46⟩
        rcases hb : buf_append st.wordbuf st.stream.ch with _ | buf
        · simp [lex_step, hmode, halnum, h46, hb] at hs
        · simp [lex_step, hmode, halnum, h46, hb] at hs
          subst hs
          exact h
  | MODE_WORD =>
    by_cases h1 : is_alnum (to_lower st.stream.ch) = true ∨ to_lower st.stream.ch = 95
    · rcases hb : buf_append st.wordbuf (to_lower st.stream.ch) with _ | buf
      · simp [lex_step, hmode, h1, hb] at hs
      · simp [lex_step, hmode, h1, hb] at hs
        subst hs
        exact h
    · rcases hb : buf_append st.wordbuf 0 with _ | buf
      · simp [lex_step, hmode, h1, hb] at hs
      · by_cases hm1 : st.make_symlit = true
        · simp [lex_step, hmode, h1, hb, hm1] at hs
          subst hs
          exact le_good_push _ _ (by simp) h
        · rcases hk : identify_keyword st.wordbuf with _ | kw
          · simp [lex_step, hmode, h1, hb, hm1, hk] at hs
            subst hs
            exact le_good_push _ _ (make_word_ne_line_end _) h
          · simp [lex_step, hmode, h1, hb, hm1, hk] at hs
            subst hs
            exact le_good_push _ _ (by simp) h
  | MODE_SYMBOL =>
    rcases hb : buf_append st.wordbuf st.stream.ch with _ | buf
    · simp [lex_step, hmode, hb] at hs
    · rcases hk : identify_symbol buf with _ | sym
      · rcases ht : st.tmp_symbol with _ | sym2
        · simp [lex_step, hmode, hb, hk, ht] at hs
        · by_cases hc1 : sym2 = token_symbol.SYMBOL_COMMENT
          · simp [lex_step, hmode, hb, hk, ht, hc1] at hs
            subst hs
            exact h
          · by_cases hc2 : sym2 = token_symbol.SYMBOL_POUND
            · simp [lex_step, hmode, hb, hk, ht, hc1, hc2] at hs
              subst hs
              exact h
            · simp [lex_step, hmode, hb, hk, ht, hc1, hc2] at hs
              subst hs
              exact le_good_push _ _ (by simp) h
      · simp [lex_step, hmode, hb, hk] at hs
        subst hs
        exact h
  | MODE_STRING =>
    by_cases h1 : st.stream.ch = 34
    · simp [lex_step, hmode, h1] at hs
      subst hs
      exact le_good_push _ _ (by simp) h
    · simp [lex_step, hmode, h1] at hs
      subst hs
      exact h

theorem lex_flush_le_good (toks : List token) (h : le_good toks) :
    le_good (lex_flush toks) := by
  unfold lex_flush
  split
  case _ hg =>
    exact le_good_push_le _
      (by intro he; rw [he] at hg; exact absurd hg.1 (by simp)) hg.2 h
  case _ => exact h

theorem lex_loop_le_good (fuel : Nat) :
    ∀ st toks, le_good st.tokens → lex_loop fuel st = .ok toks → le_good toks := by
  induction fuel with
  | zero => intro st toks _ hl; exact lexres.noConfusion hl
  | succ n ih =>
    intro st toks h hl
    rw [lex_loop] at hl
    split at hl
    · cases hl
      exact lex_flush_le_good _ h
    · rcases hstep : lex_step st with st2 | m | m <;> rw [hstep] at hl
      · exact ih st2 toks (lex_step_le_good st st2 h hstep) hl
      · exact lexres.noConfusion hl
      · exact lexres.noConfusion hl

/-- C8: when the lexer succeeds, no `line_end` token is first and no two
consecutive tokens are both `line_end`; and in the idle state a newline
arriving right after a `\\` symbol token erases that token and emits no
`line_end` (the following tokens attach to the prior line). -/
theorem C8_lexer_line_end_discipline (fuel : Nat) (input : bstr) (toks : List token)
    (h : parse_tokens fuel input = .ok toks) :
    (toks.head? ≠ some token.line_end ∧
     List.Chain' (fun a b => ¬(a = token.line_end ∧ b = token.line_end)) toks) ∧
    (∀ (st : lex_state) (ts : List token), st.mode = .MODE_NONE → st.stream.ch = 10 →
      st.tokens = ts ++ [.symbol .SYMBOL_LINE_CONT] →
      lex_step st = .cont { st with tokens := ts, stream := next_char st.stream }) := by
  constructor
  · have hg : le_good toks := by
      unfold parse_tokens at h
      exact lex_loop_le_good fuel _ toks (by simp [le_good]) h
    unfold le_good at hg
    rw [List.chain'_cons'] at hg
    obtain ⟨h1, h2⟩ := hg
    refine ⟨?_, h2⟩
    intro hh
    exact (h1 _ (by rw [hh]; rfl)) ⟨rfl, rfl⟩
  · intro st ts hmode hch htoks
    have hlc : check_line_cont st = true := by
      unfold check_line_cont
      rw [htoks]
      simp
    simp [lex_step, hmode, is_space, hch, hlc, htoks]

/-- The token list of the C8 witness input. -/
def c8w_toks : List token :=
  [.word (bytes "x") .WORD_ID_UNKNOWN, .word (bytes "y") .WORD_ID_UNKNOWN,
   .line_end, .word (bytes "z") .WORD_ID_UNKNOWN, .line_end]

/-- C8 witness: the discipline theorem applied to a concrete input with a
line continuation and a blank line, the lexer run outright. -/
theorem C8_lexer_line_end_discipline_witness :
    parse_tokens 100 (bytes "x \\\n y\n\nz") = .ok c8w_toks ∧
    ((c8w_toks.head? ≠ some token.line_end ∧
      List.Chain' (fun a b => ¬(a = token.line_end ∧ b = token.line_end)) c8w_toks) ∧
     (∀ (st : lex_state) (ts : List token), st.mode = .MODE_NONE → st.stream.ch = 10 →
       st.tokens = ts ++ [.symbol .SYMBOL_LINE_CONT] →
       lex_step st = .cont { st with tokens := ts, stream := next_char st.stream })) :=
  ⟨by decide,
   C8_lexer_line_end_discipline 100 (bytes "x \\\n y\n\nz") c8w_toks (by decide)⟩


end Graffiti
